import Mathlib

/-!
Verification of the arviz data-normalization layer (arviz/utils/xarray_utils.py)
and the posterior-plot drawing logic (arviz/plots/posteriorplot.py), via a
shallow embedding of the Python source into Lean.

Numpy arrays are modelled by their shapes (a list of dimension sizes); the
claims under study only concern shapes, dimension names and coordinate labels.
Python exceptions are modelled by an explicit error type and `Except`.
-/

namespace Arviz

/-- Python exceptions that the embedded code can raise. -/
inductive PyErr where
  | valueError (msg : String)
  | typeError (msg : String)
  | keyError (key : String)
  | attributeError (msg : String)
  | indexError (msg : String)
deriving Repr, DecidableEq

/-- Shape-level model of a `numpy.ndarray`: the list of dimension sizes. -/
structure NpArray where
  shape : List Nat
deriving Repr, DecidableEq

/-- Coordinate mapping: dimension name to its index labels (`coords` in the
source).  Python dicts are modelled as association lists with distinct keys;
lookups take the first matching entry. -/
abbrev Coords := List (String × List Int)

/-- Shape-level model of an `xarray.DataArray` as built by
`numpy_to_data_array`: the data shape, the dimension names, and one index
coordinate per dimension (in dimension order, as built by the final dict
comprehension of the source). -/
structure DataArray where
  shape : List Nat
  dims : List String
  coords : Coords
deriving Repr, DecidableEq

/-- Model of an `xarray.Dataset`: named variables (`data_vars`). -/
abbrev Dataset := List (String × DataArray)

/-- `np.arange(n)`: the labels `0, 1, ..., n-1`. -/
def arange (n : Nat) : List Int :=
  (List.range n).map Int.ofNat

/-- `np.atleast_3d` at the level of shapes: `()` becomes `(1,1,1)`, `(n)`
becomes `(1,n,1)`, `(m,n)` becomes `(m,n,1)`, anything else is unchanged. -/
def atleast_3d (shape : List Nat) : List Nat :=
  match shape with
  | [] => [1, 1, 1]
  | [n] => [1, n, 1]
  | [m, n] => [m, n, 1]
  | s => s

/-- Decimal digit characters, as produced by Python `str` formatting. -/
def digitChar10 : Nat → Char
  | 0 => '0' | 1 => '1' | 2 => '2' | 3 => '3' | 4 => '4'
  | 5 => '5' | 6 => '6' | 7 => '7' | 8 => '8' | 9 => '9'
  | _ => '?'

/-- Decimal rendering of a natural number, as Python `str(idx)` produces. -/
def natStr (n : Nat) : String :=
  if n = 0 then "0" else String.mk ((Nat.digits 10 n).reverse.map digitChar10)

/-- The trailing-dimension name `'{var_name}_dim_{idx}'` from the source. -/
def extraDimName (var_name : String) (idx : Nat) : String :=
  var_name ++ "_dim_" ++ natStr idx

/-- Dimension names appended by the `for idx, dim_len in enumerate(shape)`
loop, starting at index `i`. -/
def extraDimsFrom (var_name : String) (i : Nat) : List Nat → List String
  | [] => []
  | _ :: rest => extraDimName var_name i :: extraDimsFrom var_name (i + 1) rest

/-- Coordinates `coords[dims[-1]] = np.arange(dim_len)` appended by the same
loop, starting at index `i`. -/
def extraCoordsFrom (var_name : String) (i : Nat) : List Nat → Coords
  | [] => []
  | len :: rest => (extraDimName var_name i, arange len) :: extraCoordsFrom var_name (i + 1) rest

/-- `if 'chain' not in coords: coords['chain'] = np.arange(n_chains)` —
inserts a default index for `key` when it is absent. -/
def addDefaultCoord (c : Coords) (key : String) (v : List Int) : Coords :=
  if (c.lookup key).isSome then c else c ++ [(key, v)]

/-- The comprehension `{key: xr.IndexVariable((key,), data=coords[key]) for
key in dims}`: looks every dimension name up in `coords`, raising `KeyError`
on a missing one. -/
def buildIndexCoords : List String → Coords → Except PyErr Coords
  | [], _ => .ok []
  | k :: ks, c =>
    match c.lookup k with
    | some v => (buildIndexCoords ks c).map (fun rest => (k, v) :: rest)
    | none => .error (.keyError k)

def default_dims : List String := ["chain", "draw"]

/-- Lines 157-164 of xarray_utils.py, shared by both branches of
`numpy_to_data_array`: unpack `n_chains, n_samples, *_ = ary.shape` (a
`ValueError` when the shape has fewer than two entries), insert default
`chain`/`draw` coordinates when absent, and build the per-dimension index
variables of the resulting `xr.DataArray`. -/
def finishDataArray (sh : List Nat) (dims : List String) (coords0 : Coords) :
    Except PyErr DataArray :=
  match sh with
  | n_chains :: n_samples :: _ =>
    let c1 := addDefaultCoord coords0 "chain" (arange n_chains)
    let c2 := addDefaultCoord c1 "draw" (arange n_samples)
    (buildIndexCoords dims c2).map (fun cs => ⟨sh, dims, cs⟩)
  | _ => .error (.valueError "not enough values to unpack (expected at least 2)")

/-- Embedding of `numpy_to_data_array(ary, *, var_name, coords, dims)`.

With `dims=None` the array is padded to at least three dimensions
(`can_squeeze` records whether padding happened), the trailing padded axis is
squeezed away again for low-dimensional input, and any remaining trailing
dimensions are named `'{var_name}_dim_{idx}'` with `np.arange` labels.  With
user-supplied `dims`, `dict(coords)` raises when `coords` is `None`, and
`['chain', 'draw']` is prepended unless the caller already listed it first.
The `SyntaxWarning` for more chains than draws has no effect on the result
and is not modelled. -/
def numpy_to_data_array (ary : NpArray) (var_name : String)
    (coords : Option Coords) (dims : Option (List String)) :
    Except PyErr DataArray :=
  match dims with
  | none =>
    let shape3 := if ary.shape.length < 3 then atleast_3d ary.shape else ary.shape
    match shape3 with
    | n_chains :: n_samples :: shape =>
      if ary.shape.length < 3 ∧ shape = [1] then
        finishDataArray [n_chains, n_samples] default_dims []
      else
        finishDataArray (n_chains :: n_samples :: shape)
          (default_dims ++ extraDimsFrom var_name 0 shape)
          (extraCoordsFrom var_name 0 shape)
    | _ => .error (.valueError "not enough values to unpack (expected at least 2)")
  | some user_dims =>
    match coords with
    | none => .error (.typeError "dict argument must be iterable, not NoneType")
    | some coords0 =>
      let dims1 := if user_dims.take 2 = default_dims then user_dims
                   else default_dims ++ user_dims
      finishDataArray ary.shape dims1 coords0

/-- The loop body of `dict_to_dataset`: convert each named array with
`dims.get(key)` as its dimension list, propagating any exception. -/
def dictToDatasetVars (coords : Option Coords) (dimsMap : List (String × List String)) :
    List (String × NpArray) → Except PyErr Dataset
  | [] => .ok []
  | (key, values) :: rest =>
    match numpy_to_data_array values key coords (dimsMap.lookup key) with
    | .ok da => (dictToDatasetVars coords dimsMap rest).map (fun ds => (key, da) :: ds)
    | .error e => .error e

/-- Embedding of `dict_to_dataset(data, *, coords, dims)`. -/
def dict_to_dataset (data : List (String × NpArray)) (coords : Option Coords)
    (dims : Option (List (String × List String))) : Except PyErr Dataset :=
  dictToDatasetVars coords (dims.getD []) data

/-- Modelled from the spec: `arviz.InferenceData` (imported by
xarray_utils.py but defined outside this repository) is a named-group
container holding one optional dataset per group; `InferenceData(**kwargs)`
stores each keyword argument as a group attribute. -/
structure InferenceData where
  groups : List (String × Option Dataset)
deriving Repr, DecidableEq

/-- `getattr(inference_data, group, None)`: a missing group attribute and a
group attribute stored as `None` both yield `None`. -/
def InferenceData.getGroup (i : InferenceData) (group : String) : Option Dataset :=
  (i.groups.lookup group).bind id

/-- Modelled from the spec: `InferenceData.from_netcdf` (defined outside this
repository) attempts to load the netcdf dataset from disk and returns an
`InferenceData`.  The loaded contents are irrelevant to the claims under
study; what matters is that an `InferenceData` is produced and that reaching
this call reads a file. -/
def InferenceData.from_netcdf (_filename : String) : InferenceData :=
  ⟨[("posterior", some [])]⟩

/-- Model of a pymc3 `MultiTrace` as consumed by `PyMC3Converter`:
`varnames`, `np.array(trace.get_values(v, combine=False))` for each variable,
`stat_names`, and `np.array(trace.get_sampler_stats(s, combine=False))` for
each statistic (the external library calls are modelled as data). -/
structure MultiTrace where
  varnames : List String
  vals : List (String × NpArray)
  stat_names : List String
  stats : List (String × NpArray)
deriving Repr, DecidableEq

/-- Modelled from the spec: `pm.utils.get_default_varnames(..,
include_transformed=False)` (pymc3, outside this repository) drops the
transformed variables, whose names end with an underscore. -/
def get_default_varnames (varnames : List String) : List String :=
  varnames.filter (fun v => ¬ v.endsWith "_")

/-- `np.array(trace.get_values(var_name, combine=False))`; an unknown
variable name raises a `KeyError`. -/
def MultiTrace.get_values (t : MultiTrace) (v : String) : Except PyErr NpArray :=
  match t.vals.lookup v with
  | some a => .ok a
  | none => .error (.keyError v)

/-- `np.array(trace.get_sampler_stats(stat, combine=False))`; an unknown
statistic name raises a `KeyError`. -/
def MultiTrace.get_sampler_stats (t : MultiTrace) (s : String) : Except PyErr NpArray :=
  match t.stats.lookup s with
  | some a => .ok a
  | none => .error (.keyError s)

/-- The `for var_name in var_names: data[var_name] = np.array(...)` loop of
`PyMC3Converter.posterior_to_xarray`. -/
def collectTraceVals (t : MultiTrace) : List String → Except PyErr (List (String × NpArray))
  | [] => .ok []
  | v :: vs =>
    match t.get_values v with
    | .ok a => (collectTraceVals t vs).map (fun rest => (v, a) :: rest)
    | .error e => .error e

/-- The `for stat in self.trace.stat_names` loop of
`PyMC3Converter.sample_stats_to_xarray`. -/
def collectTraceStats (t : MultiTrace) : List String → Except PyErr (List (String × NpArray))
  | [] => .ok []
  | s :: ss =>
    match t.get_sampler_stats s with
    | .ok a => (collectTraceStats t ss).map (fun rest => (s, a) :: rest)
    | .error e => .error e

/-- `np.expand_dims(v, 0)` at the level of shapes. -/
def expand_dims0 (a : NpArray) : NpArray :=
  ⟨1 :: a.shape⟩

/-- Embedding of the `PyMC3Converter` constructor state. -/
structure PyMC3Converter where
  trace : Option MultiTrace
  prior : Option (List (String × NpArray))
  posterior_predictive : Option (List (String × NpArray))
  coords : Option Coords
  dims : Option (List (String × List String))
deriving Repr, DecidableEq

namespace PyMC3Converter

/-- `@requires('trace') posterior_to_xarray`: `None` when the trace is
absent, otherwise the default (non-transformed) variables as a dataset. -/
def posterior_to_xarray (c : PyMC3Converter) : Except PyErr (Option Dataset) :=
  match c.trace with
  | none => .ok none
  | some tr => do
    let data ← collectTraceVals tr (get_default_varnames tr.varnames)
    (dict_to_dataset data c.coords c.dims).map some

/-- `@requires('trace') sample_stats_to_xarray`: sampler statistics as a
dataset (note: `dict_to_dataset(data)` here is called without coords/dims). -/
def sample_stats_to_xarray (c : PyMC3Converter) : Except PyErr (Option Dataset) :=
  match c.trace with
  | none => .ok none
  | some tr => do
    let data ← collectTraceStats tr tr.stat_names
    (dict_to_dataset data none none).map some

/-- `@requires('posterior_predictive') posterior_predictive_to_xarray`. -/
def posterior_predictive_to_xarray (c : PyMC3Converter) : Except PyErr (Option Dataset) :=
  match c.posterior_predictive with
  | none => .ok none
  | some pp =>
    (dict_to_dataset (pp.map (fun kv => (kv.1, expand_dims0 kv.2))) c.coords c.dims).map some

/-- `@requires('prior') prior_to_xarray`. -/
def prior_to_xarray (c : PyMC3Converter) : Except PyErr (Option Dataset) :=
  match c.prior with
  | none => .ok none
  | some pr =>
    (dict_to_dataset (pr.map (fun kv => (kv.1, expand_dims0 kv.2))) c.coords c.dims).map some

/-- `PyMC3Converter.to_inference_data`: the four groups, in the order of the
source dict literal, each `None` when its source attribute is absent. -/
def to_inference_data (c : PyMC3Converter) : Except PyErr InferenceData := do
  let post ← c.posterior_to_xarray
  let stats ← c.sample_stats_to_xarray
  let pp ← c.posterior_predictive_to_xarray
  let pr ← c.prior_to_xarray
  .ok ⟨[("posterior", post), ("sample_stats", stats),
        ("posterior_predictive", pp), ("prior", pr)]⟩

end PyMC3Converter

/-- `pymc3_to_inference_data(*, trace, prior, posterior_predictive, coords,
dims)`. -/
def pymc3_to_inference_data (trace : Option MultiTrace)
    (prior posterior_predictive : Option (List (String × NpArray)))
    (coords : Option Coords) (dims : Option (List (String × List String))) :
    Except PyErr InferenceData :=
  PyMC3Converter.to_inference_data ⟨trace, prior, posterior_predictive, coords, dims⟩

/-- Model of a pystan `StanFit4Model` as consumed by `PyStanConverter`:
the model parameter names, the Stan program text, the keyed result of
`fit.extract(var_names, dtypes=dtypes, permuted=False)` (the external call is
modelled as data; the `dtypes` argument changes dtypes, never shapes), and
`fit.get_sampler_params(inc_warmup=False)` as one keyed record per chain. -/
structure StanFit where
  model_pars : List String
  stancode : String
  extract_vals : List (String × NpArray)
  sampler_params : List (List (String × NpArray))
deriving Repr, DecidableEq

/-- `np.swapaxes(values, 0, 1)` at the level of shapes; numpy raises for
arrays with fewer than two axes. -/
def swapaxes01 (a : NpArray) : Except PyErr NpArray :=
  match a.shape with
  | d0 :: d1 :: rest => .ok ⟨d1 :: d0 :: rest⟩
  | _ => .error (.valueError "axis 1 is out of bounds for the array")

/-- `np.atleast_2d` at the level of shapes. -/
def atleast_2d (shape : List Nat) : List Nat :=
  match shape with
  | [] => [1, 1]
  | [n] => [1, n]
  | s => s

/-- `np.vstack`: promote every array to at least two dimensions and
concatenate along axis 0; shapes must agree on every other axis. -/
def vstack (arrays : List NpArray) : Except PyErr NpArray :=
  match arrays with
  | [] => .error (.valueError "need at least one array to concatenate")
  | a0 :: rest =>
    let s0 := atleast_2d a0.shape
    let srest := rest.map (fun a => atleast_2d a.shape)
    if srest.all (fun s1 => s1.length = s0.length ∧ s1.tail = s0.tail) then
      .ok ⟨(s0.headD 0 + (srest.map (fun s1 => s1.headD 0)).sum) :: s0.tail⟩
    else
      .error (.valueError "all the input array dimensions must match exactly")

/-- Whitespace characters of Python's `\s` class (ASCII range). -/
def isPyWs (c : Char) : Bool :=
  c = ' ' ∨ c = '\t' ∨ c = '\n' ∨ c = '\r' ∨ c = '\x0b' ∨ c = '\x0c'

/-- The per-line removal of deprecated `#` comments:
`line if "#" not in line else line[:line.find("#")]`. -/
def dropHashComment (line : List Char) : List Char :=
  if '#' ∈ line then line.takeWhile (fun c => ¬ c = '#') else line

/-- `str.splitlines()` modelled over plain newlines: cut the text into lines,
dropping the separators. -/
def splitLinesAux : List Char → List Char → List (List Char)
  | acc, [] => [acc.reverse]
  | acc, '\n' :: rest => acc.reverse :: splitLinesAux [] rest
  | acc, c :: rest => splitLinesAux (c :: acc) rest

/-- `"\n".join(...)`. -/
def joinLines : List (List Char) → List Char
  | [] => []
  | [l] => l
  | l :: rest => l ++ '\n' :: joinLines rest

/-- `"\n".join(line if "#" not in line else line[:line.find("#")] for line in
stan_code.splitlines())`; line separators are modelled as plain newlines. -/
def removeDeprecatedComments (code : String) : String :=
  String.mk (joinLines ((splitLinesAux [] code.toList).map dropHashComment))

/-- The last segment of `text.split(sep)`: scan left to right, and each time
`sep` occurs (non-overlapping) restart the current segment after it; the
segment in progress at the end of the text is `split(sep)[-1]`.  Each step
consumes at least one character, so a fuel of the text length suffices. -/
def splitTailAux (sep : List Char) : Nat → List Char → List Char → List Char
  | 0, seg, _ => seg.reverse
  | fuel + 1, seg, cs =>
    if ¬ sep = [] ∧ cs.take sep.length = sep then
      splitTailAux sep fuel [] (cs.drop sep.length)
    else
      match cs with
      | [] => seg.reverse
      | c :: rest => splitTailAux sep fuel (c :: seg) rest

/-- Consume a `//` line comment: `//.*?$` under `re.MULTILINE` stops just
before the next newline (which is kept) or at the end of the text. -/
def skipLineComment : List Char → List Char
  | [] => []
  | '\n' :: rest => '\n' :: rest
  | _ :: rest => skipLineComment rest

/-- Consume a block comment after its opening `/*`: the lazy `/\*.*?\*/`
stops at the first `*/`; with no closing marker the pattern does not match. -/
def skipBlockComment : List Char → Option (List Char)
  | '*' :: '/' :: rest => some rest
  | _ :: rest => skipBlockComment rest
  | [] => none

/-- Consume a quoted literal after its opening quote `q`, following
`(?:\\.|[^\\q])*q`: a backslash escapes the next character; with no closing
quote the pattern does not match. -/
def skipQuoted (q : Char) : List Char → Option (List Char)
  | [] => none
  | '\\' :: _ :: rest => skipQuoted q rest
  | c :: rest => if c = q then some rest else skipQuoted q rest

/-- Left-to-right, non-overlapping application of
`re.sub(r"//.*?$|/\*.*?\*/|'(?:\\.|[^\\'])*'|\"(?:\\.|[^\\\"])*\"", "", ...)`
(with `re.DOTALL|re.MULTILINE`): drop comments and string literals, keep
everything else.  Each step consumes at least one character, so a fuel equal
to the input length suffices. -/
def stripCommentsAux : Nat → List Char → List Char
  | 0, _ => []
  | _ + 1, [] => []
  | fuel + 1, '/' :: '/' :: rest => stripCommentsAux fuel (skipLineComment rest)
  | fuel + 1, '/' :: '*' :: rest =>
    match skipBlockComment rest with
    | some rest1 => stripCommentsAux fuel rest1
    | none => '/' :: stripCommentsAux fuel ('*' :: rest)
  | fuel + 1, '\'' :: rest =>
    match skipQuoted '\'' rest with
    | some rest1 => stripCommentsAux fuel rest1
    | none => '\'' :: stripCommentsAux fuel rest
  | fuel + 1, '"' :: rest =>
    match skipQuoted '"' rest with
    | some rest1 => stripCommentsAux fuel rest1
    | none => '"' :: stripCommentsAux fuel rest
  | fuel + 1, c :: rest => c :: stripCommentsAux fuel rest

/-- `re.sub(pattern_remove_comments, "", stan_code)`. -/
def stripComments (code : String) : String :=
  String.mk (stripCommentsAux code.toList.length code.toList)

/-- Characters ending the capture group `([^;=\s\[]+)` of `pattern_int`. -/
def isStanStop (c : Char) : Bool :=
  c = ';' ∨ c = '=' ∨ c = '[' ∨ isPyWs c

/-- Match the literal `int` case-insensitively (the pattern is compiled with
`re.IGNORECASE`; ASCII case folding). -/
def matchIntKeyword : List Char → Option (List Char)
  | c1 :: c2 :: c3 :: rest =>
    if (c1 = 'i' ∨ c1 = 'I') ∧ (c2 = 'n' ∨ c2 = 'N') ∧ (c3 = 't' ∨ c3 = 'T') then some rest
    else none
  | _ => none

/-- Consume one `\<[^\>]+\>` limits group: `<`, at least one non-`>`
character, then `>`. -/
def skipLimitGroup : List Char → Option (List Char)
  | '<' :: rest =>
    let inner := rest.takeWhile (fun c => ¬ c = '>')
    if inner = [] then none
    else
      match rest.drop inner.length with
      | '>' :: r => some r
      | _ => none
  | _ => none

/-- Greedily consume `(?:\<[^\>]+\>)*`, also returning the input position of
the last consumed group (the single backtracking point the pattern needs). -/
def skipLimitGroups : Nat → List Char → Option (List Char) → (List Char × Option (List Char))
  | 0, cs, lastStart => (cs, lastStart)
  | fuel + 1, cs, lastStart =>
    match skipLimitGroup cs with
    | some rest => skipLimitGroups fuel rest (some cs)
    | none => (cs, lastStart)

/-- Try `pattern_int` at the current position.  On a match, return the
captured parameter name and the remaining input.  When the capture cannot
start after the greedily consumed limits groups (the next character is `;`,
`=`, `[` or the end), the regex engine backtracks by giving up the last
limits group, after which the capture always succeeds starting at its `<`. -/
def tryIntMatch (cs : List Char) : Option (String × List Char) :=
  match matchIntKeyword cs with
  | none => none
  | some rest1 =>
    let rest2 := rest1.dropWhile isPyWs
    let (afterGroups, lastStart) := skipLimitGroups rest2.length rest2 none
    let rest3 := afterGroups.dropWhile isPyWs
    let cap := rest3.takeWhile (fun c => ¬ isStanStop c)
    if cap = [] then
      match lastStart with
      | some ls =>
        let cap2 := ls.takeWhile (fun c => ¬ isStanStop c)
        some (String.mk cap2, ls.drop cap2.length)
      | none => none
    else
      some (String.mk cap, rest3.drop cap.length)

/-- `re.findall(pattern_int, stan_code)`: scan left to right, collecting
non-overlapping matches and advancing one character where no match starts. -/
def findIntCaptures : Nat → List Char → List String
  | 0, _ => []
  | _ + 1, [] => []
  | fuel + 1, cs =>
    match tryIntMatch cs with
    | some (cap, rest) => cap :: findIntCaptures fuel rest
    | none => findIntCaptures fuel (cs.drop 1)

/-- Python `str.strip()`: drop leading and trailing whitespace. -/
def pyStrip (s : String) : String :=
  String.mk (((s.toList.dropWhile isPyWs).reverse.dropWhile isPyWs).reverse)

/-- Python dict insertion: assigning an existing key keeps its position and
updates its value; a new key is appended. -/
def dictInsert (d : List (String × String)) (k v : String) : List (String × String) :=
  if (d.lookup k).isSome then d.map (fun kv => if kv.1 = k then (k, v) else kv)
  else d ++ [(k, v)]

/-- `stan_code.split("generated quantities")[-1]` applied to the fit's
program text after both comment-stripping passes. -/
def generatedQuantitiesSegment (f : StanFit) : String :=
  let cleaned := (stripComments (removeDeprecatedComments f.stancode)).toList
  String.mk (splitTailAux "generated quantities".toList (cleaned.length + 1) [] cleaned)

namespace PyStanConverter

/-- `PyStanConverter.infer_dtypes`: find `int` declarations in the portion of
the comment-stripped Stan program after the last `generated quantities`, and
keep those whose stripped name is one of the fit's model parameters, each
mapped to `'int'`. -/
def infer_dtypes (f : StanFit) : List (String × String) :=
  let seg := generatedQuantitiesSegment f
  let items := findIntCaptures seg.toList.length seg.toList
  items.foldl
    (fun d item =>
      let it := pyStrip item
      if it ∈ f.model_pars then dictInsert d it "int" else d)
    []

/-- The `for var_name, values in var_dict.items(): data[var_name] =
np.swapaxes(values, 0, 1)` loop of `posterior_to_xarray`. -/
def collectExtract : List (String × NpArray) → Except PyErr (List (String × NpArray))
  | [] => .ok []
  | (v, a) :: rest =>
    match swapaxes01 a with
    | .ok b => (collectExtract rest).map (fun tail => (v, b) :: tail)
    | .error e => .error e

/-- `PyStanConverter.posterior_to_xarray` (the computed dtypes feed
`fit.extract` and change dtypes only, never shapes). -/
def posterior_to_xarray (f : StanFit) (coords : Option Coords)
    (dims : Option (List (String × List String))) : Except PyErr Dataset :=
  let _dtypes := infer_dtypes f
  match collectExtract f.extract_vals with
  | .ok data => dict_to_dataset data coords dims
  | .error e => .error e

/-- The renaming `rename_key.get(key, re.sub('__$', "", key))`. -/
def renameStat (key : String) : String :=
  let rename_key : List (String × String) :=
    [("accept_stat__", "accept_stat"), ("divergent__", "diverging"),
     ("energy__", "energy"), ("lp__", "lp"), ("n_leapfrog__", "n_leapfrog"),
     ("stepsize__", "stepsize"), ("treedepth__", "treedepth")]
  (rename_key.lookup key).getD (if key.endsWith "__" then key.dropRight 2 else key)

/-- `[j[key].astype(dtypes.get(key)) for j in sampler_params]`: gather one
array per chain for a given key (`astype` changes dtypes only, never
shapes). -/
def collectChains (key : String) : List (List (String × NpArray)) → Except PyErr (List NpArray)
  | [] => .ok []
  | ch :: rest =>
    match ch.lookup key with
    | some a => (collectChains key rest).map (fun tail => a :: tail)
    | none => .error (.keyError key)

/-- The `for key in sampler_params[0]` loop of `sample_stats_to_xarray`. -/
def collectStats (chains : List (List (String × NpArray))) :
    List String → Except PyErr (List (String × NpArray))
  | [] => .ok []
  | key :: ks => do
    let arrays ← collectChains key chains
    let v ← vstack arrays
    (collectStats chains ks).map (fun tail => (renameStat key, v) :: tail)

/-- `PyStanConverter.sample_stats_to_xarray`; `sampler_params[0]` raises an
`IndexError` on an empty chain list. -/
def sample_stats_to_xarray (f : StanFit) (coords : Option Coords)
    (dims : Option (List (String × List String))) : Except PyErr Dataset :=
  match f.sampler_params with
  | [] => .error (.indexError "list index out of range")
  | chain0 :: _ => do
    let data ← collectStats f.sampler_params (chain0.map Prod.fst)
    dict_to_dataset data coords dims

/-- `PyStanConverter.to_inference_data`: exactly the `posterior` and
`sample_stats` groups. -/
def to_inference_data (f : StanFit) (coords : Option Coords)
    (dims : Option (List (String × List String))) : Except PyErr InferenceData := do
  let post ← posterior_to_xarray f coords dims
  let stats ← sample_stats_to_xarray f coords dims
  .ok ⟨[("posterior", some post), ("sample_stats", some stats)]⟩

end PyStanConverter

/-- `pystan_to_inference_data(*, fit, coords, dims)` (constructing
`PyStanConverter` with `fit=None` would already fail at `fit.model_pars`, so
the fit is taken as present). -/
def pystan_to_inference_data (fit : StanFit) (coords : Option Coords)
    (dims : Option (List (String × List String))) : Except PyErr InferenceData :=
  PyStanConverter.to_inference_data fit coords dims

/-- The possible inputs of `convert_to_inference_data`, by the kind the
dispatch distinguishes: an `InferenceData`, a netcdf filename, an object
whose class is named `StanFit4Model` or `MultiTrace`, an `xarray.Dataset`, a
dict of arrays, a numpy array, or an object of any other class (carrying its
class name). -/
inductive PyObj where
  | inferenceData (d : InferenceData)
  | str (filename : String)
  | stanFit (f : StanFit)
  | multiTrace (t : MultiTrace)
  | xrDataset (d : Dataset)
  | dict (d : List (String × NpArray))
  | ndarray (a : NpArray)
  | other (className : String)
deriving Repr, DecidableEq

deriving instance DecidableEq for Except

/-- The value returned (or exception raised) by `convert_to_inference_data`,
together with whether evaluating it read a file from disk (only the
`InferenceData.from_netcdf` branch does). -/
structure ConvertOutcome where
  result : Except PyErr InferenceData
  fileRead : Bool
deriving Repr, DecidableEq

/-- Embedding of `convert_to_inference_data(obj, *, group, coords, dims)`:
dispatch on the kind of `obj`, raising `ValueError` for an unsupported one.
An object of an unrelated class merely *named* `StanFit4Model` or
`MultiTrace` is routed to the matching converter, which fails with an
`AttributeError` when it touches the missing fit or trace attributes. -/
def convert_to_inference_data (obj : PyObj) (group : String)
    (coords : Option Coords) (dims : Option (List (String × List String))) :
    ConvertOutcome :=
  match obj with
  | .inferenceData d => ⟨.ok d, false⟩
  | .str filename => ⟨.ok (InferenceData.from_netcdf filename), true⟩
  | .stanFit f => ⟨pystan_to_inference_data f coords dims, false⟩
  | .multiTrace t => ⟨pymc3_to_inference_data (some t) none none coords dims, false⟩
  | .xrDataset d => ⟨.ok ⟨[(group, some d)]⟩, false⟩
  | .dict d => ⟨(dict_to_dataset d coords dims).map (fun ds => ⟨[(group, some ds)]⟩), false⟩
  | .ndarray a => ⟨(dict_to_dataset [("x", a)] coords dims).map (fun ds => ⟨[(group, some ds)]⟩), false⟩
  | .other className =>
    if className = "StanFit4Model" ∨ className = "MultiTrace" then
      ⟨.error (.attributeError ("object of class " ++ className ++
        " lacks the attributes of a fit or trace")), false⟩
    else
      ⟨.error (.valueError ("Can only convert xarray dataset, dict, netcdf file, " ++
        "numpy array, pystan fit, pymc3 trace to InferenceData, not " ++ className)), false⟩

/-- Embedding of `convert_to_dataset(obj, *, group, coords, dims)`: convert
to `InferenceData`, then extract the requested group, raising `ValueError`
when `getattr(inference_data, group, None)` is `None`. -/
def convert_to_dataset (obj : PyObj) (group : String)
    (coords : Option Coords) (dims : Option (List (String × List String))) :
    Except PyErr Dataset :=
  match (convert_to_inference_data obj group coords dims).result with
  | .error e => .error e
  | .ok idata =>
    match idata.getGroup group with
    | some ds => .ok ds
    | none => .error (.valueError ("Can not extract " ++ group ++ "!"))

/-- Whether the dispatch input is one of the supported kinds (everything but
an object of another class). -/
def PyObj.supported : PyObj → Bool
  | .other _ => false
  | _ => true

/-- Well-formedness of a chain record for one sampler statistic: the key is
present with a one-dimensional array of the expected length. -/
def chainHasKey (n : Nat) (key : String) (ch : List (String × NpArray)) : Bool :=
  match ch.lookup key with
  | some a => a.shape == [n]
  | none => false

/-- Well-formedness of a modelled `StanFit4Model`, as pystan guarantees it:
`extract(.., permuted=False)` yields arrays with at least two axes, and the
per-chain sampler statistics are nonempty, consistently keyed,
one-dimensional arrays of a common length per key. -/
def StanFit.wf (f : StanFit) : Bool :=
  f.extract_vals.all (fun kv => decide (2 ≤ kv.2.shape.length)) &&
  (match f.sampler_params with
   | [] => false
   | chain0 :: _ =>
     (chain0.map Prod.fst).all (fun key =>
       match chain0.lookup key with
       | some a =>
         match a.shape with
         | [n] => f.sampler_params.all (chainHasKey n key)
         | _ => false
       | none => false))

/-- Well-formedness of a modelled `MultiTrace`, as pymc3 guarantees it:
every default variable name has values and every statistic name has
sampler statistics. -/
def MultiTrace.wf (t : MultiTrace) : Bool :=
  (get_default_varnames t.varnames).all (fun v => (t.vals.lookup v).isSome) &&
  t.stat_names.all (fun st => (t.stats.lookup st).isSome)

/-- Well-formedness of a dispatch input: embedded fits and traces satisfy
what their libraries guarantee, and no unrelated class reuses the two class
names the dispatch tests for. -/
def PyObj.wf : PyObj → Bool
  | .stanFit f => f.wf
  | .multiTrace t => t.wf
  | .other className => !(className == "StanFit4Model" || className == "MultiTrace")
  | _ => true

/-- Whether an embedded computation returned normally. -/
def exceptIsOk {ε α : Type} : Except ε α → Bool
  | .ok _ => true
  | .error _ => false

/-! Embedding of the drawing decision of `_plot_posterior_op`
(posteriorplot.py lines 211-229) and of its `display_point_estimate` helper.
The flattened sample values are modelled by their dtype kind character
(`values.dtype.kind`: `'f'` float, `'i'` signed integer, ...) and, where the
code inspects them, by a list of integer samples (only the integer-dtype
branch reads the values, for their min and max). -/

/-- The `bins` argument of `plt.hist`: `'auto'` or an explicit sequence. -/
inductive Bins where
  | auto
  | explicitBins (bs : List Int)
deriving Repr, DecidableEq

/-- What `_plot_posterior_op` draws for the variable: a kernel density curve
(`kdeplot`) or a histogram (`ax.hist`) with its bins. -/
inductive PlotDraw where
  | kdeCurve
  | histogram (bins : Bins)
deriving Repr, DecidableEq

/-- Python `range(a, b)` as a list. -/
def pyRange (a b : Int) : List Int :=
  (List.range (b - a).toNat).map (fun i => a + Int.ofNat i)

/-- `values.min()`; numpy raises `ValueError` on an empty array. -/
def npMin (l : List Int) : Except PyErr Int :=
  match l with
  | [] => .error (.valueError "zero-size array to reduction operation minimum")
  | x :: xs => .ok (xs.foldl min x)

/-- `values.max()`; numpy raises `ValueError` on an empty array. -/
def npMax (l : List Int) : Except PyErr Int :=
  match l with
  | [] => .error (.valueError "zero-size array to reduction operation maximum")
  | x :: xs => .ok (xs.foldl max x)

/-- The drawing decision of `_plot_posterior_op`: a KDE curve exactly for
`kind == 'kde'` on float-kind values, otherwise a histogram whose bins
default to `range(xmin, xmax + 2)` for integer-kind values and to `'auto'`
otherwise when the caller left `bins` as `None`. -/
def plotPosteriorDraw (kind : String) (dtypeKind : Char) (bins : Option Bins)
    (vals : List Int) : Except PyErr PlotDraw :=
  if kind = "kde" ∧ dtypeKind = 'f' then
    .ok .kdeCurve
  else
    match bins with
    | none =>
      if dtypeKind = 'i' then do
        let xmin ← npMin vals
        let xmax ← npMax vals
        .ok (.histogram (.explicitBins (pyRange xmin (xmax + 2))))
      else
        .ok (.histogram .auto)
    | some b => .ok (.histogram b)

/-- `np.mean` over rational sample values (the empty case, which numpy maps
to `nan` with a warning, is modelled as `0`; no claim touches it). -/
def npMean (l : List ℚ) : ℚ :=
  l.sum / (l.length : ℚ)

/-- `np.median` over rational sample values: sort, then take the middle
element or the average of the two middle elements (the empty case, `nan` in
numpy, is modelled as `0`; no claim touches it). -/
def npMedian (l : List ℚ) : ℚ :=
  let s := l.mergeSort (fun a b => decide (a ≤ b))
  let n := s.length
  if n = 0 then 0
  else if n % 2 = 1 then s.getD (n / 2) 0
  else (s.getD (n / 2 - 1) 0 + s.getD (n / 2) 0) / 2

/-- Embedding of `display_point_estimate`: the values are the flattened
numpy array `x.flatten()` handed over by `posteriorplot`.  `values.iloc` is a
pandas accessor; a `numpy.ndarray` has no such attribute, so the `mode`
branch raises `AttributeError` at `values.iloc[0]`, before the kde/argmax
computation and before any text is placed.  Returns the point value that
gets drawn, `none` when `point_estimate` is falsy. -/
def display_point_estimate (point_estimate : Option String) (values : List ℚ)
    (_bw : ℚ) (_round_to : Nat) : Except PyErr (Option ℚ) :=
  match point_estimate with
  | none => .ok none
  | some pe =>
    if pe = "" then .ok none
    else if ¬ (pe = "mode" ∨ pe = "mean" ∨ pe = "median") then
      .error (.valueError "Point Estimate should be in (mode,mean,median)")
    else if pe = "mean" then .ok (some (npMean values))
    else if pe = "mode" then
      .error (.attributeError "numpy.ndarray object has no attribute iloc")
    else .ok (some (npMedian values))

/-! ### Helper lemmas -/

lemma stringDataInj {s t : String} (h : s.data = t.data) : s = t := by
  cases s; cases t; exact congrArg String.mk h

lemma stringDataAppend (s t : String) : (s ++ t).data = s.data ++ t.data := rfl

lemma digitChar10_injOn : ∀ a, a < 10 → ∀ b, b < 10 → digitChar10 a = digitChar10 b → a = b := by
  decide

lemma map_digitChar10_inj : ∀ (l1 l2 : List Nat), (∀ x ∈ l1, x < 10) → (∀ x ∈ l2, x < 10) →
    l1.map digitChar10 = l2.map digitChar10 → l1 = l2 := by
  intro l1
  induction l1 with
  | nil => intro l2 _ _ h; cases l2 <;> simp_all
  | cons a t ih =>
    intro l2 h1 h2 h
    cases l2 with
    | nil => simp_all
    | cons b t2 =>
      simp only [List.map_cons, List.cons.injEq] at h
      have hab := digitChar10_injOn a (h1 a (by simp)) b (h2 b (by simp)) h.1
      subst hab
      have ht := ih t2 (fun x hx => h1 x (by simp [hx])) (fun x hx => h2 x (by simp [hx])) h.2
      simp [ht]

lemma digits10_lt (n : Nat) : ∀ x ∈ Nat.digits 10 n, x < 10 :=
  fun _ hx => Nat.digits_lt_base (by norm_num) hx

lemma natStr_inj : ∀ m n : Nat, natStr m = natStr n → m = n := by
  have zeroCase : ∀ n : Nat, n ≠ 0 → natStr 0 = natStr n → False := by
    intro n hn h
    rw [natStr, natStr, if_pos rfl, if_neg hn] at h
    have hd : (['0'] : List Char) = (Nat.digits 10 n).reverse.map digitChar10 :=
      congrArg String.data h
    have hsing : (Nat.digits 10 n).reverse = [0] := by
      cases hrev : (Nat.digits 10 n).reverse with
      | nil => rw [hrev] at hd; simp at hd
      | cons d rest =>
        cases rest with
        | nil =>
          rw [hrev] at hd
          simp only [List.map_cons, List.map_nil, List.cons.injEq] at hd
          have hdlt : d < 10 := by
            refine digits10_lt n d ?_
            have : d ∈ (Nat.digits 10 n).reverse := by rw [hrev]; simp
            simpa using this
          have : (0 : Nat) = d := digitChar10_injOn 0 (by norm_num) d hdlt (by simpa using hd.1)
          rw [← this]
        | cons e rest2 => rw [hrev] at hd; simp at hd
    have hdig : Nat.digits 10 n = [0] := by
      have := congrArg List.reverse hsing
      simpa using this
    have := Nat.ofDigits_digits 10 n
    rw [hdig] at this
    simp [Nat.ofDigits] at this
    exact hn this.symm
  intro m n h
  by_cases hm : m = 0 <;> by_cases hn : n = 0
  · rw [hm, hn]
  · exact (zeroCase n hn (by rw [← hm]; exact h)).elim
  · exact (zeroCase m hm (by rw [← hn]; exact h.symm)).elim
  · rw [natStr, natStr, if_neg hm, if_neg hn] at h
    have hd : (Nat.digits 10 m).reverse.map digitChar10 =
        (Nat.digits 10 n).reverse.map digitChar10 := congrArg String.data h
    have hrev := map_digitChar10_inj _ _
      (fun x hx => digits10_lt m x (by simpa using hx))
      (fun x hx => digits10_lt n x (by simpa using hx)) hd
    have hdig : Nat.digits 10 m = Nat.digits 10 n := List.reverse_inj.mp hrev
    have := congrArg (Nat.ofDigits 10) hdig
    rwa [Nat.ofDigits_digits, Nat.ofDigits_digits] at this

lemma extraDimName_inj (vn : String) {i j : Nat} (h : extraDimName vn i = extraDimName vn j) :
    i = j := by
  have hd := congrArg String.data h
  rw [extraDimName, extraDimName, stringDataAppend, stringDataAppend,
    stringDataAppend, stringDataAppend] at hd
  have h1 := List.append_cancel_left hd
  exact natStr_inj i j (stringDataInj h1)

lemma underscore_mem_extraDimName (vn : String) (i : Nat) :
    '_' ∈ (extraDimName vn i).data := by
  rw [extraDimName, stringDataAppend, stringDataAppend]
  refine List.mem_append.mpr (Or.inl (List.mem_append.mpr (Or.inr ?_)))
  decide

lemma extraDimName_ne_chain (vn : String) (i : Nat) : extraDimName vn i ≠ "chain" := by
  intro h
  have := underscore_mem_extraDimName vn i
  rw [h] at this
  exact absurd this (by decide)

lemma extraDimName_ne_draw (vn : String) (i : Nat) : extraDimName vn i ≠ "draw" := by
  intro h
  have := underscore_mem_extraDimName vn i
  rw [h] at this
  exact absurd this (by decide)

lemma lookup_append_some {β : Type} {k : String} {v : β} {l1 l2 : List (String × β)}
    (h : l1.lookup k = some v) : (l1 ++ l2).lookup k = some v := by
  induction l1 with
  | nil => simp [List.lookup] at h
  | cons p t ih =>
    rw [List.cons_append]
    rw [List.lookup] at h ⊢
    cases hk : (k == p.1) with
    | true => rw [hk] at h; simpa using h
    | false => rw [hk] at h; simp only []; exact ih h

lemma lookup_append_of_none {β : Type} {k : String} {l1 l2 : List (String × β)}
    (h : l1.lookup k = none) : (l1 ++ l2).lookup k = l2.lookup k := by
  induction l1 with
  | nil => simp
  | cons p t ih =>
    rw [List.cons_append]
    rw [List.lookup] at h ⊢
    cases hk : (k == p.1) with
    | true => rw [hk] at h; simp at h
    | false => rw [hk] at h; simp only []; exact ih h

lemma lookup_extraCoordsFrom_chain (vn : String) :
    ∀ (rest : List Nat) (i : Nat), (extraCoordsFrom vn i rest).lookup "chain" = none := by
  intro rest
  induction rest with
  | nil => intro i; simp [extraCoordsFrom, List.lookup]
  | cons len r ih =>
    intro i
    rw [extraCoordsFrom, List.lookup]
    have : ("chain" == extraDimName vn i) = false :=
      beq_eq_false_iff_ne.mpr (fun h => extraDimName_ne_chain vn i h.symm)
    rw [this]
    exact ih (i + 1)

lemma lookup_extraCoordsFrom_draw (vn : String) :
    ∀ (rest : List Nat) (i : Nat), (extraCoordsFrom vn i rest).lookup "draw" = none := by
  intro rest
  induction rest with
  | nil => intro i; simp [extraCoordsFrom, List.lookup]
  | cons len r ih =>
    intro i
    rw [extraCoordsFrom, List.lookup]
    have : ("draw" == extraDimName vn i) = false :=
      beq_eq_false_iff_ne.mpr (fun h => extraDimName_ne_draw vn i h.symm)
    rw [this]
    exact ih (i + 1)

lemma lookup_extraCoordsFrom_self (vn : String) :
    ∀ (rest : List Nat) (start i : Nat) (hi : i < rest.length),
      (extraCoordsFrom vn start rest).lookup (extraDimName vn (start + i)) =
        some (arange (rest.get ⟨i, hi⟩)) := by
  intro rest
  induction rest with
  | nil => intro start i hi; exact absurd hi (by simp)
  | cons len r ih =>
    intro start i hi
    cases i with
    | zero =>
      rw [extraCoordsFrom, List.lookup]
      have : (extraDimName vn (start + 0) == extraDimName vn start) = true := by
        rw [Nat.add_zero]; exact beq_self_eq_true _
      rw [this]
      rfl
    | succ i1 =>
      rw [extraCoordsFrom, List.lookup]
      have hne : (extraDimName vn (start + (i1 + 1)) == extraDimName vn start) = false := by
        refine beq_eq_false_iff_ne.mpr (fun h => ?_)
        have := extraDimName_inj vn h
        omega
      rw [hne]
      have := ih (start + 1) i1 (by simpa using Nat.lt_of_succ_lt_succ hi)
      rw [show start + 1 + i1 = start + (i1 + 1) by omega] at this
      rw [this]
      rfl

/-! ### Branch facts about `numpy_to_data_array` -/

/-- The chain/draw normalization invariant of a produced data array: the
first two dimensions are `chain` and `draw` and their coordinate labels are
`np.arange` over the first two entries of the data shape. -/
def chainDrawNormalized (da : DataArray) : Prop :=
  da.dims.take 2 = ["chain", "draw"] ∧
  da.coords.lookup "chain" = some (arange (da.shape.headD 0)) ∧
  da.coords.lookup "draw" = some (arange (da.shape.tail.headD 0))

/-- Whether the caller-supplied `coords` argument already provides `key`. -/
def coordsHasKey (coords : Option Coords) (key : String) : Bool :=
  match coords with
  | none => false
  | some c => (c.lookup key).isSome

lemma isSome_false_eq_none {α : Type} {o : Option α} (h : o.isSome = false) : o = none := by
  cases o with
  | none => rfl
  | some v => simp at h

lemma numpy_zero_d (vn : String) (coords : Option Coords) :
    numpy_to_data_array ⟨[]⟩ vn coords none =
      .ok ⟨[1, 1], ["chain", "draw"], [("chain", arange 1), ("draw", arange 1)]⟩ := rfl

lemma numpy_one_d (n : Nat) (vn : String) (coords : Option Coords) :
    numpy_to_data_array ⟨[n]⟩ vn coords none =
      .ok ⟨[1, n], ["chain", "draw"], [("chain", arange 1), ("draw", arange n)]⟩ := rfl

lemma numpy_two_d (m n : Nat) (vn : String) (coords : Option Coords) :
    numpy_to_data_array ⟨[m, n]⟩ vn coords none =
      .ok ⟨[m, n], ["chain", "draw"], [("chain", arange m), ("draw", arange n)]⟩ := rfl

lemma lookup_c2_extra_chain (vn : String) (rest : List Nat) (ac ad : List Int) :
    ((extraCoordsFrom vn 0 rest ++ [("chain", ac)]) ++ [("draw", ad)]).lookup "chain" =
      some ac := by
  rw [List.append_assoc, lookup_append_of_none (lookup_extraCoordsFrom_chain vn rest 0)]
  rfl

lemma lookup_c2_extra_draw (vn : String) (rest : List Nat) (ac ad : List Int) :
    ((extraCoordsFrom vn 0 rest ++ [("chain", ac)]) ++ [("draw", ad)]).lookup "draw" =
      some ad := by
  rw [List.append_assoc, lookup_append_of_none (lookup_extraCoordsFrom_draw vn rest 0)]
  rfl

lemma buildIndexCoords_extra (vn : String) :
    ∀ (rest : List Nat) (start : Nat) (cAll : Coords),
      (∀ i (hi : i < rest.length),
        cAll.lookup (extraDimName vn (start + i)) = some (arange (rest.get ⟨i, hi⟩))) →
      buildIndexCoords (extraDimsFrom vn start rest) cAll =
        .ok (extraCoordsFrom vn start rest) := by
  intro rest
  induction rest with
  | nil => intro start cAll _; rfl
  | cons len r ih =>
    intro start cAll h
    rw [extraDimsFrom, buildIndexCoords]
    have h0 := h 0 (by simp)
    rw [Nat.add_zero] at h0
    rw [h0]
    have hr := ih (start + 1) cAll (fun i hi => by
      have := h (i + 1) (by simpa using Nat.succ_lt_succ hi)
      rw [show start + (i + 1) = start + 1 + i by omega] at this
      exact this)
    rw [hr]
    rfl

lemma finish_extra (c d : Nat) (rest : List Nat) (vn : String) :
    finishDataArray (c :: d :: rest) ("chain" :: "draw" :: extraDimsFrom vn 0 rest)
        (extraCoordsFrom vn 0 rest) =
      .ok ⟨c :: d :: rest, "chain" :: "draw" :: extraDimsFrom vn 0 rest,
           ("chain", arange c) :: ("draw", arange d) :: extraCoordsFrom vn 0 rest⟩ := by
  rw [finishDataArray]
  have hc1 : addDefaultCoord (extraCoordsFrom vn 0 rest) "chain" (arange c) =
      extraCoordsFrom vn 0 rest ++ [("chain", arange c)] := by
    rw [addDefaultCoord, lookup_extraCoordsFrom_chain vn rest 0]
    rfl
  have hc2 : addDefaultCoord (extraCoordsFrom vn 0 rest ++ [("chain", arange c)]) "draw"
      (arange d) = (extraCoordsFrom vn 0 rest ++ [("chain", arange c)]) ++
        [("draw", arange d)] := by
    rw [addDefaultCoord, lookup_append_of_none (lookup_extraCoordsFrom_draw vn rest 0)]
    rfl
  rw [hc1, hc2]
  rw [buildIndexCoords, lookup_c2_extra_chain, buildIndexCoords, lookup_c2_extra_draw]
  have hex : buildIndexCoords (extraDimsFrom vn 0 rest)
      ((extraCoordsFrom vn 0 rest ++ [("chain", arange c)]) ++ [("draw", arange d)]) =
      .ok (extraCoordsFrom vn 0 rest) := by
    refine buildIndexCoords_extra vn rest 0 _ (fun i hi => ?_)
    exact lookup_append_some (lookup_append_some (lookup_extraCoordsFrom_self vn rest 0 i hi))
  rw [hex]
  rfl

lemma numpy_multi_d (c d r0 : Nat) (rtail : List Nat) (vn : String) (coords : Option Coords) :
    numpy_to_data_array ⟨c :: d :: r0 :: rtail⟩ vn coords none =
      .ok ⟨c :: d :: r0 :: rtail,
           "chain" :: "draw" :: extraDimsFrom vn 0 (r0 :: rtail),
           ("chain", arange c) :: ("draw", arange d) :: extraCoordsFrom vn 0 (r0 :: rtail)⟩ := by
  have h3 : ¬ ((⟨c :: d :: r0 :: rtail⟩ : NpArray).shape.length < 3) := by
    simp only [List.length_cons]
    omega
  have hsplit : ¬ ((⟨c :: d :: r0 :: rtail⟩ : NpArray).shape.length < 3 ∧
      (r0 :: rtail : List Nat) = [1]) := fun hh => h3 hh.1
  rw [numpy_to_data_array, if_neg h3]
  change (if (⟨c :: d :: r0 :: rtail⟩ : NpArray).shape.length < 3 ∧
      (r0 :: rtail : List Nat) = [1] then
        finishDataArray [c, d] default_dims []
      else
        finishDataArray (c :: d :: r0 :: rtail)
          (default_dims ++ extraDimsFrom vn 0 (r0 :: rtail))
          (extraCoordsFrom vn 0 (r0 :: rtail))) = _
  rw [if_neg hsplit]
  exact finish_extra c d (r0 :: rtail) vn

lemma numpy_none_ok (ary : NpArray) (vn : String) (coords : Option Coords) :
    ∃ da, numpy_to_data_array ary vn coords none = .ok da := by
  obtain ⟨sh⟩ := ary
  match sh with
  | [] => exact ⟨_, numpy_zero_d vn coords⟩
  | [n] => exact ⟨_, numpy_one_d n vn coords⟩
  | [m, n] => exact ⟨_, numpy_two_d m n vn coords⟩
  | c :: d :: r0 :: rtail => exact ⟨_, numpy_multi_d c d r0 rtail vn coords⟩

lemma finishDataArray_user (nc ns : Nat) (tl : List Nat) (t : List String) (c0 : Coords)
    (da : DataArray)
    (hC : c0.lookup "chain" = none) (hD : c0.lookup "draw" = none)
    (h : finishDataArray (nc :: ns :: tl) ("chain" :: "draw" :: t) c0 = .ok da) :
    da.shape = nc :: ns :: tl ∧ da.dims = "chain" :: "draw" :: t ∧
    da.coords.lookup "chain" = some (arange nc) ∧
    da.coords.lookup "draw" = some (arange ns) := by
  rw [finishDataArray] at h
  have hc1 : addDefaultCoord c0 "chain" (arange nc) = c0 ++ [("chain", arange nc)] := by
    rw [addDefaultCoord, hC]; rfl
  have hDc1 : (c0 ++ [("chain", arange nc)]).lookup "draw" = none := by
    rw [lookup_append_of_none hD]; rfl
  have hc2 : addDefaultCoord (c0 ++ [("chain", arange nc)]) "draw" (arange ns) =
      (c0 ++ [("chain", arange nc)]) ++ [("draw", arange ns)] := by
    rw [addDefaultCoord, hDc1]; rfl
  rw [hc1, hc2] at h
  have hlc : ((c0 ++ [("chain", arange nc)]) ++ [("draw", arange ns)]).lookup "chain" =
      some (arange nc) := by
    rw [List.append_assoc, lookup_append_of_none hC]; rfl
  have hld : ((c0 ++ [("chain", arange nc)]) ++ [("draw", arange ns)]).lookup "draw" =
      some (arange ns) := by
    rw [List.append_assoc, lookup_append_of_none hD]; rfl
  rw [buildIndexCoords, hlc, buildIndexCoords, hld] at h
  cases hb : buildIndexCoords t ((c0 ++ [("chain", arange nc)]) ++ [("draw", arange ns)]) with
  | error e => rw [hb] at h; simp [Except.map] at h
  | ok rest =>
    rw [hb] at h
    simp only [Except.map] at h
    cases h
    refine ⟨rfl, rfl, ?_, ?_⟩
    · rfl
    · rfl

lemma numpy_some_unfold (ary : NpArray) (vn : String) (c0 : Coords) (uds : List String) :
    numpy_to_data_array ary vn (some c0) (some uds) =
      finishDataArray ary.shape
        (if uds.take 2 = default_dims then uds else default_dims ++ uds) c0 := rfl

lemma take_two_eq (l : List String) (h : l.take 2 = ["chain", "draw"]) :
    l = "chain" :: "draw" :: l.drop 2 := by
  cases l with
  | nil => simp at h
  | cons a t =>
    cases t with
    | nil => simp at h
    | cons b t2 =>
      simp only [List.take, List.cons.injEq, and_true] at h
      rw [h.1, h.2]
      rfl

lemma numpyChainDraw (ary : NpArray) (vn : String) (coords : Option Coords)
    (dims : Option (List String)) (da : DataArray)
    (hc : coordsHasKey coords "chain" = false) (hd : coordsHasKey coords "draw" = false)
    (h : numpy_to_data_array ary vn coords dims = .ok da) : chainDrawNormalized da := by
  cases dims with
  | none =>
    obtain ⟨sh⟩ := ary
    match sh with
    | [] =>
      rw [numpy_zero_d] at h
      injection h with h1
      rw [← h1]
      exact ⟨rfl, rfl, rfl⟩
    | [n] =>
      rw [numpy_one_d] at h
      injection h with h1
      rw [← h1]
      exact ⟨rfl, rfl, rfl⟩
    | [m, n] =>
      rw [numpy_two_d] at h
      injection h with h1
      rw [← h1]
      exact ⟨rfl, rfl, rfl⟩
    | c :: d :: r0 :: rtail =>
      rw [numpy_multi_d] at h
      injection h with h1
      rw [← h1]
      exact ⟨rfl, rfl, rfl⟩
  | some uds =>
    cases coords with
    | none =>
      rw [show numpy_to_data_array ary vn none (some uds) =
        (.error (.typeError "dict argument must be iterable, not NoneType") :
          Except PyErr DataArray) from rfl] at h
      exact Except.noConfusion h
    | some c0 =>
      have hc0 : c0.lookup "chain" = none :=
        isSome_false_eq_none (by simpa [coordsHasKey] using hc)
      have hd0 : c0.lookup "draw" = none :=
        isSome_false_eq_none (by simpa [coordsHasKey] using hd)
      rw [numpy_some_unfold] at h
      have hasCD : ∃ t, (if uds.take 2 = default_dims then uds else default_dims ++ uds) =
          "chain" :: "draw" :: t := by
        by_cases htake : uds.take 2 = default_dims
        · exact ⟨uds.drop 2, by rw [if_pos htake]; exact take_two_eq uds htake⟩
        · exact ⟨uds, by rw [if_neg htake]; rfl⟩
      obtain ⟨t, ht⟩ := hasCD
      rw [ht] at h
      obtain ⟨sh⟩ := ary
      match sh with
      | [] => exact Except.noConfusion h
      | [x] => exact Except.noConfusion h
      | nc :: ns :: tl =>
        obtain ⟨hsh, hdims, hlc, hld⟩ := finishDataArray_user nc ns tl t c0 da hc0 hd0 h
        refine ⟨?_, ?_, ?_⟩
        · rw [hdims]; rfl
        · rw [hlc, hsh]; rfl
        · rw [hld, hsh]; rfl

lemma dictChainDraw (data : List (String × NpArray)) (coords : Option Coords)
    (dimsMap : List (String × List String)) (ds : Dataset)
    (hc : coordsHasKey coords "chain" = false) (hd : coordsHasKey coords "draw" = false)
    (h : dictToDatasetVars coords dimsMap data = .ok ds) :
    ∀ k da, (k, da) ∈ ds → chainDrawNormalized da := by
  induction data generalizing ds with
  | nil =>
    intro k da hmem
    rw [dictToDatasetVars] at h
    injection h with h1
    rw [← h1] at hmem
    simp at hmem
  | cons p rest ih =>
    intro k da hmem
    obtain ⟨key, values⟩ := p
    rw [dictToDatasetVars] at h
    cases hn : numpy_to_data_array values key coords (dimsMap.lookup key) with
    | error e => rw [hn] at h; exact Except.noConfusion h
    | ok da1 =>
      rw [hn] at h
      cases hr : dictToDatasetVars coords dimsMap rest with
      | error e => rw [hr] at h; exact Except.noConfusion h
      | ok ds1 =>
        rw [hr] at h
        simp only [Except.map] at h
        injection h with h1
        rw [← h1] at hmem
        rcases List.mem_cons.mp hmem with heq | h2
        · injection heq with hk hda
          rw [hda]
          exact numpyChainDraw values key coords (dimsMap.lookup key) da1 hc hd hn
        · exact ih ds1 hr k da h2

lemma buildIndexCoords_missing : ∀ (dims : List String) (c : Coords),
    (∃ k, k ∈ dims ∧ c.lookup k = none) →
    ∃ k2, buildIndexCoords dims c = .error (.keyError k2) := by
  intro dims
  induction dims with
  | nil =>
    intro c h
    obtain ⟨k, hk, _⟩ := h
    simp at hk
  | cons d ds ih =>
    intro c h
    obtain ⟨k, hk, hnone⟩ := h
    rw [buildIndexCoords]
    cases hl : c.lookup d with
    | none => exact ⟨d, rfl⟩
    | some v =>
      rcases List.mem_cons.mp hk with rfl | hk2
      · rw [hl] at hnone; exact Option.noConfusion hnone
      · obtain ⟨k2, hk2e⟩ := ih c ⟨k, hk2, hnone⟩
        rw [hk2e]
        exact ⟨k2, rfl⟩

lemma lookup_addDefault_ne (c : Coords) (key name : String) (v : List Int)
    (hne : name ≠ key) (h : c.lookup name = none) :
    (addDefaultCoord c key v).lookup name = none := by
  rw [addDefaultCoord]
  by_cases hk : (c.lookup key).isSome
  · rw [if_pos hk]; exact h
  · rw [if_neg hk, lookup_append_of_none h, List.lookup,
      show (name == key) = false from beq_eq_false_iff_ne.mpr hne]
    rfl

lemma finish_user_missing (nc ns : Nat) (tl : List Nat) (dims1 : List String) (c0 : Coords)
    (name : String) (hmem : name ∈ dims1) (hnc : name ≠ "chain") (hnd : name ≠ "draw")
    (h0 : c0.lookup name = none) :
    ∃ k, finishDataArray (nc :: ns :: tl) dims1 c0 = .error (.keyError k) := by
  rw [finishDataArray]
  have h2 : (addDefaultCoord (addDefaultCoord c0 "chain" (arange nc)) "draw"
      (arange ns)).lookup name = none :=
    lookup_addDefault_ne _ _ _ _ hnd (lookup_addDefault_ne _ _ _ _ hnc h0)
  obtain ⟨k, hk⟩ := buildIndexCoords_missing dims1 _ ⟨name, hmem, h2⟩
  rw [hk]
  exact ⟨k, rfl⟩

/-! ### Totality of the converters on well-formed inputs -/

lemma dict_nil_ok (data : List (String × NpArray)) (coords : Option Coords) :
    ∃ ds, dictToDatasetVars coords [] data = .ok ds := by
  induction data with
  | nil => exact ⟨[], rfl⟩
  | cons p rest ih =>
    obtain ⟨key, values⟩ := p
    obtain ⟨ds1, hds1⟩ := ih
    obtain ⟨da, hda⟩ := numpy_none_ok values key coords
    refine ⟨(key, da) :: ds1, ?_⟩
    rw [dictToDatasetVars]
    have hda2 : numpy_to_data_array values key coords
        (([] : List (String × List String)).lookup key) = .ok da := hda
    rw [hda2, hds1]
    rfl

lemma dict_to_dataset_none_ok (data : List (String × NpArray)) (coords : Option Coords) :
    ∃ ds, dict_to_dataset data coords none = .ok ds :=
  dict_nil_ok data coords

lemma collectTraceVals_ok (tr : MultiTrace) :
    ∀ (names : List String), (∀ v ∈ names, (tr.vals.lookup v).isSome = true) →
      ∃ data, collectTraceVals tr names = .ok data := by
  intro names
  induction names with
  | nil => intro _; exact ⟨[], rfl⟩
  | cons v vs ih =>
    intro hall
    obtain ⟨data1, hdata1⟩ := ih (fun x hx => hall x (by simp [hx]))
    have hv := hall v (by simp)
    cases hl : tr.vals.lookup v with
    | none => rw [hl] at hv; simp at hv
    | some a =>
      refine ⟨(v, a) :: data1, ?_⟩
      rw [collectTraceVals, MultiTrace.get_values, hl, hdata1]
      rfl

lemma collectTraceStats_ok (tr : MultiTrace) :
    ∀ (names : List String), (∀ s1 ∈ names, (tr.stats.lookup s1).isSome = true) →
      ∃ data, collectTraceStats tr names = .ok data := by
  intro names
  induction names with
  | nil => intro _; exact ⟨[], rfl⟩
  | cons v vs ih =>
    intro hall
    obtain ⟨data1, hdata1⟩ := ih (fun x hx => hall x (by simp [hx]))
    have hv := hall v (by simp)
    cases hl : tr.stats.lookup v with
    | none => rw [hl] at hv; simp at hv
    | some a =>
      refine ⟨(v, a) :: data1, ?_⟩
      rw [collectTraceStats, MultiTrace.get_sampler_stats, hl, hdata1]
      rfl

lemma pymc3_convert_ok (tr : MultiTrace) (hwf : tr.wf = true) :
    ∃ i, pymc3_to_inference_data (some tr) none none none none = .ok i := by
  rw [MultiTrace.wf, Bool.and_eq_true] at hwf
  obtain ⟨hvals, hstats⟩ := hwf
  have hvals2 := List.all_eq_true.mp hvals
  have hstats2 := List.all_eq_true.mp hstats
  obtain ⟨data1, hdata1⟩ := collectTraceVals_ok tr (get_default_varnames tr.varnames) hvals2
  obtain ⟨ds1, hds1⟩ := dict_to_dataset_none_ok data1 none
  obtain ⟨data2, hdata2⟩ := collectTraceStats_ok tr tr.stat_names hstats2
  obtain ⟨ds2, hds2⟩ := dict_to_dataset_none_ok data2 none
  have hpost : PyMC3Converter.posterior_to_xarray ⟨some tr, none, none, none, none⟩ =
      .ok (some ds1) := by
    change (collectTraceVals tr (get_default_varnames tr.varnames)) >>=
      (fun data => (dict_to_dataset data none none).map some) = .ok (some ds1)
    rw [hdata1]
    show (dict_to_dataset data1 none none).map some = .ok (some ds1)
    rw [hds1]
    rfl
  have hstats3 : PyMC3Converter.sample_stats_to_xarray ⟨some tr, none, none, none, none⟩ =
      .ok (some ds2) := by
    change (collectTraceStats tr tr.stat_names) >>=
      (fun data => (dict_to_dataset data none none).map some) = .ok (some ds2)
    rw [hdata2]
    show (dict_to_dataset data2 none none).map some = .ok (some ds2)
    rw [hds2]
    rfl
  refine ⟨⟨[("posterior", some ds1), ("sample_stats", some ds2),
            ("posterior_predictive", none), ("prior", none)]⟩, ?_⟩
  rw [pymc3_to_inference_data, PyMC3Converter.to_inference_data]
  rw [hpost]
  show PyMC3Converter.sample_stats_to_xarray ⟨some tr, none, none, none, none⟩ >>= _ = _
  rw [hstats3]
  rfl

lemma collectExtract_ok : ∀ (l : List (String × NpArray)),
    (∀ kv ∈ l, 2 ≤ kv.2.shape.length) →
    ∃ out, PyStanConverter.collectExtract l = .ok out := by
  intro l
  induction l with
  | nil => intro _; exact ⟨[], rfl⟩
  | cons p rest ih =>
    intro hall
    obtain ⟨v, a⟩ := p
    obtain ⟨out1, hout1⟩ := ih (fun x hx => hall x (by simp [hx]))
    have ha : 2 ≤ a.shape.length := by simpa using hall (v, a) (by simp)
    match hsh : a.shape with
    | [] => rw [hsh] at ha; simp at ha
    | [x] => rw [hsh] at ha; simp at ha
    | d0 :: d1 :: r =>
      have hswap : swapaxes01 a = .ok ⟨d1 :: d0 :: r⟩ := by
        rw [swapaxes01, hsh]
      refine ⟨(v, ⟨d1 :: d0 :: r⟩) :: out1, ?_⟩
      rw [PyStanConverter.collectExtract, hswap, hout1]
      rfl

lemma collectChains_ok (key : String) (n : Nat) :
    ∀ (chains : List (List (String × NpArray))),
      (∀ ch ∈ chains, chainHasKey n key ch = true) →
      ∃ arrays, PyStanConverter.collectChains key chains = .ok arrays ∧
        (∀ a ∈ arrays, a.shape = [n]) ∧ arrays.length = chains.length := by
  intro chains
  induction chains with
  | nil => intro _; exact ⟨[], rfl, by simp, rfl⟩
  | cons ch rest ih =>
    intro hall
    obtain ⟨arr1, harr1, hsh1, hlen1⟩ := ih (fun x hx => hall x (by simp [hx]))
    have hch := hall ch (by simp)
    cases hl : ch.lookup key with
    | none => simp [chainHasKey, hl] at hch
    | some a =>
      simp only [chainHasKey, hl, beq_iff_eq] at hch
      refine ⟨a :: arr1, ?_, ?_, ?_⟩
      · rw [PyStanConverter.collectChains, hl, harr1]
        rfl
      · intro x hx
        rcases List.mem_cons.mp hx with rfl | hx2
        · exact hch
        · exact hsh1 x hx2
      · simp [hlen1]

lemma vstack_ok (n : Nat) (a0 : NpArray) (rest : List NpArray)
    (hall : ∀ a ∈ a0 :: rest, a.shape = [n]) :
    ∃ r, vstack (a0 :: rest) = .ok r := by
  rw [vstack]
  have h0 : atleast_2d a0.shape = [1, n] := by rw [hall a0 (by simp)]; rfl
  rw [h0]
  split
  · exact ⟨_, rfl⟩
  · rename_i hfalse
    exfalso
    apply hfalse
    rw [List.all_eq_true]
    intro s1 hs1
    obtain ⟨a, ha, rfl⟩ := List.mem_map.mp hs1
    rw [hall a (by simp [ha])]
    exact decide_eq_true ⟨rfl, rfl⟩

lemma collectStats_ok (ch0 : List (String × NpArray))
    (restCh : List (List (String × NpArray))) :
    ∀ (keys : List String),
      (∀ key ∈ keys, ∃ n, ∀ ch ∈ ch0 :: restCh, chainHasKey n key ch = true) →
      ∃ out, PyStanConverter.collectStats (ch0 :: restCh) keys = .ok out := by
  intro keys
  induction keys with
  | nil => intro _; exact ⟨[], rfl⟩
  | cons key ks ih =>
    intro hall
    obtain ⟨out1, hout1⟩ := ih (fun x hx => hall x (by simp [hx]))
    obtain ⟨n, hn⟩ := hall key (by simp)
    obtain ⟨arrays, harrays, hshapes, hlen⟩ := collectChains_ok key n (ch0 :: restCh) hn
    match hac : arrays with
    | [] => simp at hlen
    | a0 :: arest =>
      obtain ⟨r, hr⟩ := vstack_ok n a0 arest hshapes
      refine ⟨(PyStanConverter.renameStat key, r) :: out1, ?_⟩
      rw [PyStanConverter.collectStats]
      rw [harrays]
      show (vstack (a0 :: arest)) >>= _ = _
      rw [hr]
      show (PyStanConverter.collectStats (ch0 :: restCh) ks).map _ = _
      rw [hout1]
      rfl

lemma statsWfKey (ch0 : List (String × NpArray))
    (restCh : List (List (String × NpArray))) (key : String)
    (h : (match ch0.lookup key with
          | some a =>
            match a.shape with
            | [n] => (ch0 :: restCh).all (chainHasKey n key)
            | _ => false
          | none => false) = true) :
    ∃ nk, ∀ ch ∈ ch0 :: restCh, chainHasKey nk key ch = true := by
  cases hl : ch0.lookup key with
  | none => rw [hl] at h; exact Bool.noConfusion h
  | some a =>
    rw [hl] at h
    have h2 : (match a.shape with
        | [n] => (ch0 :: restCh).all (chainHasKey n key)
        | _ => false) = true := h
    match hsh : a.shape with
    | [] => rw [hsh] at h2; exact Bool.noConfusion h2
    | [nk] =>
      rw [hsh] at h2
      have h3 : (ch0 :: restCh).all (chainHasKey nk key) = true := h2
      exact ⟨nk, List.all_eq_true.mp h3⟩
    | x :: y :: r => rw [hsh] at h2; exact Bool.noConfusion h2

lemma pystan_convert_ok (f : StanFit) (hwf : f.wf = true) :
    ∃ i, pystan_to_inference_data f none none = .ok i := by
  rw [StanFit.wf, Bool.and_eq_true] at hwf
  obtain ⟨hex, hstats⟩ := hwf
  have hex2 : ∀ kv ∈ f.extract_vals, 2 ≤ kv.2.shape.length := by
    intro kv hkv
    have := List.all_eq_true.mp hex kv hkv
    exact of_decide_eq_true this
  obtain ⟨out, hout⟩ := collectExtract_ok f.extract_vals hex2
  obtain ⟨ds1, hds1⟩ := dict_to_dataset_none_ok out none
  have hpost : PyStanConverter.posterior_to_xarray f none none = .ok ds1 := by
    rw [PyStanConverter.posterior_to_xarray, hout]
    exact hds1
  match hsp : f.sampler_params with
  | [] => rw [hsp] at hstats; simp at hstats
  | ch0 :: restCh =>
    rw [hsp] at hstats
    have hstats2 : ((ch0.map Prod.fst).all (fun key =>
        match ch0.lookup key with
        | some a =>
          match a.shape with
          | [n] => (ch0 :: restCh).all (chainHasKey n key)
          | _ => false
        | none => false)) = true := hstats
    have hkeys : ∀ key ∈ ch0.map Prod.fst, ∃ nk, ∀ ch ∈ ch0 :: restCh,
        chainHasKey nk key ch = true := by
      intro key hkey
      exact statsWfKey ch0 restCh key (List.all_eq_true.mp hstats2 key hkey)
    obtain ⟨out2, hout2⟩ := collectStats_ok ch0 restCh (ch0.map Prod.fst) hkeys
    obtain ⟨ds2, hds2⟩ := dict_to_dataset_none_ok out2 none
    have hss : PyStanConverter.sample_stats_to_xarray f none none = .ok ds2 := by
      rw [PyStanConverter.sample_stats_to_xarray, hsp]
      show (PyStanConverter.collectStats (ch0 :: restCh) (ch0.map Prod.fst)) >>= _ = _
      rw [hout2]
      show dict_to_dataset out2 none none = _
      rw [hds2]
    refine ⟨⟨[("posterior", some ds1), ("sample_stats", some ds2)]⟩, ?_⟩
    rw [pystan_to_inference_data, PyStanConverter.to_inference_data, hpost]
    show PyStanConverter.sample_stats_to_xarray f none none >>= _ = _
    rw [hss]
    rfl

lemma pymc3_post_none (c : PyMC3Converter) (post : Option Dataset)
    (hp : PyMC3Converter.posterior_to_xarray c = .ok post) (ht : c.trace = none) :
    post = none := by
  rw [PyMC3Converter.posterior_to_xarray, ht] at hp
  have hp2 : (Except.ok (none : Option Dataset) : Except PyErr (Option Dataset)) = .ok post := hp
  injection hp2 with h1
  exact h1.symm

lemma pymc3_stats_none (c : PyMC3Converter) (stats : Option Dataset)
    (hp : PyMC3Converter.sample_stats_to_xarray c = .ok stats) (ht : c.trace = none) :
    stats = none := by
  rw [PyMC3Converter.sample_stats_to_xarray, ht] at hp
  have hp2 : (Except.ok (none : Option Dataset) : Except PyErr (Option Dataset)) = .ok stats := hp
  injection hp2 with h1
  exact h1.symm

lemma pymc3_pp_none (c : PyMC3Converter) (pp : Option Dataset)
    (hp : PyMC3Converter.posterior_predictive_to_xarray c = .ok pp)
    (ht : c.posterior_predictive = none) : pp = none := by
  rw [PyMC3Converter.posterior_predictive_to_xarray, ht] at hp
  have hp2 : (Except.ok (none : Option Dataset) : Except PyErr (Option Dataset)) = .ok pp := hp
  injection hp2 with h1
  exact h1.symm

lemma pymc3_prior_none (c : PyMC3Converter) (pr : Option Dataset)
    (hp : PyMC3Converter.prior_to_xarray c = .ok pr) (ht : c.prior = none) : pr = none := by
  rw [PyMC3Converter.prior_to_xarray, ht] at hp
  have hp2 : (Except.ok (none : Option Dataset) : Except PyErr (Option Dataset)) = .ok pr := hp
  injection hp2 with h1
  exact h1.symm

/-! ### The claims -/

/-- Claim C1: for every input object, `convert_to_inference_data` returns an
`InferenceData` container exactly when the input is one of the supported
kinds (an `InferenceData`, a string naming a netcdf file, a pystan
`StanFit4Model`, a pymc3 `MultiTrace`, an `xarray.Dataset`, a dict of arrays,
or a numpy array), and raises `ValueError` for every object of any other
kind.  Stated at the default `coords=None, dims=None`, for inputs whose
embedded fit/trace data are well formed (`PyObj.wf`). -/
theorem claim1_convert_dispatch (obj : PyObj) (group : String) (hwf : obj.wf = true) :
    ((exceptIsOk (convert_to_inference_data obj group none none).result = true) ↔
      obj.supported = true) ∧
    (∀ c, obj = .other c →
      ∃ m, (convert_to_inference_data obj group none none).result =
        .error (.valueError m)) := by
  cases obj with
  | inferenceData d =>
    exact ⟨⟨fun _ => rfl, fun _ => rfl⟩, fun c hc => PyObj.noConfusion hc⟩
  | str filename =>
    exact ⟨⟨fun _ => rfl, fun _ => rfl⟩, fun c hc => PyObj.noConfusion hc⟩
  | xrDataset d =>
    exact ⟨⟨fun _ => rfl, fun _ => rfl⟩, fun c hc => PyObj.noConfusion hc⟩
  | dict d =>
    obtain ⟨ds, hds⟩ := dict_to_dataset_none_ok d none
    refine ⟨⟨fun _ => rfl, fun _ => ?_⟩, fun c hc => PyObj.noConfusion hc⟩
    show exceptIsOk ((dict_to_dataset d none none).map
      (fun ds2 => (⟨[(group, some ds2)]⟩ : InferenceData))) = true
    rw [hds]
    rfl
  | ndarray a =>
    obtain ⟨ds, hds⟩ := dict_to_dataset_none_ok [("x", a)] none
    refine ⟨⟨fun _ => rfl, fun _ => ?_⟩, fun c hc => PyObj.noConfusion hc⟩
    show exceptIsOk ((dict_to_dataset [("x", a)] none none).map
      (fun ds2 => (⟨[(group, some ds2)]⟩ : InferenceData))) = true
    rw [hds]
    rfl
  | stanFit f =>
    obtain ⟨i, hi⟩ := pystan_convert_ok f hwf
    refine ⟨⟨fun _ => rfl, fun _ => ?_⟩, fun c hc => PyObj.noConfusion hc⟩
    show exceptIsOk (pystan_to_inference_data f none none) = true
    rw [hi]
    rfl
  | multiTrace t =>
    obtain ⟨i, hi⟩ := pymc3_convert_ok t hwf
    refine ⟨⟨fun _ => rfl, fun _ => ?_⟩, fun c hc => PyObj.noConfusion hc⟩
    show exceptIsOk (pymc3_to_inference_data (some t) none none none none) = true
    rw [hi]
    rfl
  | other c =>
    have hne : ¬(c = "StanFit4Model" ∨ c = "MultiTrace") := by
      simp only [PyObj.wf, Bool.not_eq_true', Bool.or_eq_false_iff] at hwf
      rintro (h | h)
      · rw [h] at hwf; simp at hwf
      · rw [h] at hwf; simp at hwf
    have hres : (convert_to_inference_data (.other c) group none none).result =
        .error (.valueError ("Can only convert xarray dataset, dict, netcdf file, " ++
          "numpy array, pystan fit, pymc3 trace to InferenceData, not " ++ c)) := by
      rw [convert_to_inference_data, if_neg hne]
    refine ⟨?_, ?_⟩
    · rw [hres]
      exact ⟨fun hok => Bool.noConfusion hok, fun hs => Bool.noConfusion hs⟩
    · intro c2 hc
      exact ⟨_, hres⟩

/-- Witness for C1 at a concrete unsupported input. -/
theorem claim1_convert_dispatch_witness :
    (PyObj.other "Foo").wf = true ∧
    ((exceptIsOk (convert_to_inference_data (.other "Foo") "posterior" none none).result
      = true) ↔ (PyObj.other "Foo").supported = true) :=
  ⟨by decide, (claim1_convert_dispatch (.other "Foo") "posterior" (by decide)).1⟩

/-- Claim C2: every labeled sample array produced by `numpy_to_data_array`
(and hence every variable of a dataset produced by `dict_to_dataset`) has
`chain` and `draw` as its first two dimensions, with coordinate labels
`0..n_chains-1` and `0..n_draws-1` whenever the caller's coords do not
already provide those keys, for every input array and for both the
`dims=None` and user-supplied-dims paths. -/
theorem claim2_chain_draw_first :
    (∀ (ary : NpArray) (vn : String) (coords : Option Coords)
       (dims : Option (List String)) (da : DataArray),
      coordsHasKey coords "chain" = false → coordsHasKey coords "draw" = false →
      numpy_to_data_array ary vn coords dims = .ok da → chainDrawNormalized da) ∧
    (∀ (data : List (String × NpArray)) (coords : Option Coords)
       (dims : Option (List (String × List String))) (ds : Dataset)
       (k : String) (da : DataArray),
      coordsHasKey coords "chain" = false → coordsHasKey coords "draw" = false →
      dict_to_dataset data coords dims = .ok ds → (k, da) ∈ ds →
      chainDrawNormalized da) :=
  ⟨fun ary vn coords dims da hc hd h => numpyChainDraw ary vn coords dims da hc hd h,
   fun data coords dims ds k da hc hd h hm =>
     dictChainDraw data coords (dims.getD []) ds hc hd h k da hm⟩

/-- Witness for C2 at a concrete two-dimensional input. -/
theorem claim2_chain_draw_first_witness :
    coordsHasKey none "chain" = false ∧ coordsHasKey none "draw" = false ∧
    numpy_to_data_array ⟨[2, 3]⟩ "x" none none =
      .ok ⟨[2, 3], ["chain", "draw"], [("chain", arange 2), ("draw", arange 3)]⟩ ∧
    chainDrawNormalized
      ⟨[2, 3], ["chain", "draw"], [("chain", arange 2), ("draw", arange 3)]⟩ :=
  ⟨rfl, rfl, rfl, claim2_chain_draw_first.1 ⟨[2, 3]⟩ "x" none none _ rfl rfl rfl⟩

/-- Claim C3: when `dims` is `None`, `numpy_to_data_array` infers
dimensionality from the shape: a 1-d array of length `n` is normalized to
shape `(1, n)` (1 chain, `n` draws); a 2-d array of shape `(m, n)` is kept
as `m` chains and `n` draws; an array of three or more dimensions keeps its
first two axes as chains and draws and each trailing dimension `i` is named
`'{var_name}_dim_{i}'` (`extraDimName`) with coordinate labels `0..si-1`
(`arange`, via `extraDimsFrom`/`extraCoordsFrom`). -/
theorem claim3_dims_none_inference :
    (∀ (n : Nat) (vn : String) (coords : Option Coords),
      numpy_to_data_array ⟨[n]⟩ vn coords none =
        .ok ⟨[1, n], ["chain", "draw"], [("chain", arange 1), ("draw", arange n)]⟩) ∧
    (∀ (m n : Nat) (vn : String) (coords : Option Coords),
      numpy_to_data_array ⟨[m, n]⟩ vn coords none =
        .ok ⟨[m, n], ["chain", "draw"], [("chain", arange m), ("draw", arange n)]⟩) ∧
    (∀ (c d s0 : Nat) (stail : List Nat) (vn : String) (coords : Option Coords),
      numpy_to_data_array ⟨c :: d :: s0 :: stail⟩ vn coords none =
        .ok ⟨c :: d :: s0 :: stail,
             "chain" :: "draw" :: extraDimsFrom vn 0 (s0 :: stail),
             ("chain", arange c) :: ("draw", arange d) ::
               extraCoordsFrom vn 0 (s0 :: stail)⟩) :=
  ⟨numpy_one_d, numpy_two_d,
   fun c d s0 stail vn coords => numpy_multi_d c d s0 stail vn coords⟩

lemma mem_dictInsert {d : List (String × String)} {k v : String} {p : String × String}
    (hp : p ∈ dictInsert d k v) : p ∈ d ∨ p = (k, v) := by
  rw [dictInsert] at hp
  split at hp
  · obtain ⟨q, hq, hqe⟩ := List.mem_map.mp hp
    by_cases hqk : q.1 = k
    · right; rw [← hqe]; simp [hqk]
    · left; rw [← hqe]; simp only [if_neg hqk]; exact hq
  · rcases List.mem_append.mp hp with h1 | h2
    · exact Or.inl h1
    · right; simpa using h2

lemma inferFoldMem (pars : List String) :
    ∀ (l : List String) (acc : List (String × String)) (p : String × String),
      p ∈ l.foldl (fun d item =>
        if pyStrip item ∈ pars then dictInsert d (pyStrip item) "int" else d) acc →
      p ∈ acc ∨ (p.1 ∈ pars ∧ p.2 = "int" ∧ p.1 ∈ l.map pyStrip) := by
  intro l
  induction l with
  | nil => intro acc p hp; exact Or.inl hp
  | cons item rest ih =>
    intro acc p hp
    rw [List.foldl_cons] at hp
    by_cases hin : pyStrip item ∈ pars
    · rw [if_pos hin] at hp
      rcases ih _ p hp with hacc | hr
      · rcases mem_dictInsert hacc with h1 | h2
        · exact Or.inl h1
        · right
          rw [h2]
          exact ⟨hin, rfl, by simp⟩
      · right; exact ⟨hr.1, hr.2.1, by simp [hr.2.2]⟩
    · rw [if_neg hin] at hp
      rcases ih _ p hp with hacc | hr
      · exact Or.inl hacc
      · right; exact ⟨hr.1, hr.2.1, by simp [hr.2.2]⟩

/-- Claim C4: `PyStanConverter.infer_dtypes` recovers parameter dtypes from
the Stan program text: every entry of the returned mapping has a key that is
one of the fit's model parameter names, value `'int'`, and a key found by
the `int`-declaration scan of the portion of the comment- and
literal-stripped source after the last occurrence of
`'generated quantities'` (`generatedQuantitiesSegment`). -/
theorem claim4_infer_dtypes (f : StanFit) (k v : String)
    (h : (k, v) ∈ PyStanConverter.infer_dtypes f) :
    k ∈ f.model_pars ∧ v = "int" ∧
    k ∈ (findIntCaptures (generatedQuantitiesSegment f).toList.length
          (generatedQuantitiesSegment f).toList).map pyStrip := by
  have h2 := inferFoldMem f.model_pars
    (findIntCaptures (generatedQuantitiesSegment f).toList.length
      (generatedQuantitiesSegment f).toList) [] (k, v) h
  rcases h2 with hacc | hr
  · simp at hacc
  · exact hr

/-- Witness for C4 at a concrete Stan program. -/
theorem claim4_infer_dtypes_witness :
    (("y", "int") ∈ PyStanConverter.infer_dtypes
      ⟨["y"], "generated quantities \x7b int y; real mu; \x7d", [], []⟩) ∧
    ("y" ∈ (⟨["y"], "generated quantities \x7b int y; real mu; \x7d", [], []⟩ :
        StanFit).model_pars ∧ "int" = "int" ∧
      "y" ∈ (findIntCaptures
        (generatedQuantitiesSegment
          ⟨["y"], "generated quantities \x7b int y; real mu; \x7d", [], []⟩).toList.length
        (generatedQuantitiesSegment
          ⟨["y"], "generated quantities \x7b int y; real mu; \x7d", [], []⟩).toList).map
        pyStrip) :=
  ⟨by decide, claim4_infer_dtypes
    ⟨["y"], "generated quantities \x7b int y; real mu; \x7d", [], []⟩ "y" "int" (by decide)⟩

/-- Claim C5, counterexample: converting a string input reads a netcdf file
from disk (`InferenceData.from_netcdf`), so `convert_to_inference_data` is
not free of file input for every input, contradicting the claim as stated. -/
theorem claim5_counterexample :
    (convert_to_inference_data (.str "trace.nc") "posterior" none none).fileRead = true := rfl

/-- Claim C5 as amended: for every input that is not a string,
`convert_to_inference_data` is an in-memory transformation performing no
file read; only the string (netcdf filename) input reads a file from disk. -/
theorem claim5_inmemory_except_str (obj : PyObj) (group : String)
    (coords : Option Coords) (dims : Option (List (String × List String)))
    (h : ∀ s, obj ≠ .str s) :
    (convert_to_inference_data obj group coords dims).fileRead = false := by
  cases obj with
  | inferenceData d => rfl
  | str s => exact absurd rfl (h s)
  | stanFit f => rfl
  | multiTrace t => rfl
  | xrDataset d => rfl
  | dict d => rfl
  | ndarray a => rfl
  | other c =>
    by_cases hc : c = "StanFit4Model" ∨ c = "MultiTrace"
    · rw [convert_to_inference_data, if_pos hc]
    · rw [convert_to_inference_data, if_neg hc]

/-- Witness for the amended C5 at a concrete non-string input. -/
theorem claim5_inmemory_except_str_witness :
    (∀ s, (PyObj.ndarray ⟨[2, 3]⟩) ≠ PyObj.str s) ∧
    (convert_to_inference_data (.ndarray ⟨[2, 3]⟩) "posterior" none none).fileRead = false :=
  ⟨fun _ h => PyObj.noConfusion h,
   claim5_inmemory_except_str (.ndarray ⟨[2, 3]⟩) "posterior" none none
     (fun _ h => PyObj.noConfusion h)⟩

/-- Claim C6: every `InferenceData` produced by the framework converters is a
named-group container with groups drawn from posterior, sample-stats,
posterior-predictive and prior: the PyMC3 conversion populates exactly those
four groups, those whose source attribute is absent being `None`, and the
PyStan conversion populates exactly `posterior` and `sample_stats` (both
always present datasets). -/
theorem claim6_groups :
    (∀ (c : PyMC3Converter) (r : InferenceData),
      PyMC3Converter.to_inference_data c = .ok r →
      r.groups.map Prod.fst =
        ["posterior", "sample_stats", "posterior_predictive", "prior"] ∧
      (c.trace = none → r.groups.lookup "posterior" = some none ∧
        r.groups.lookup "sample_stats" = some none) ∧
      (c.posterior_predictive = none →
        r.groups.lookup "posterior_predictive" = some none) ∧
      (c.prior = none → r.groups.lookup "prior" = some none)) ∧
    (∀ (f : StanFit) (coords : Option Coords)
       (dims : Option (List (String × List String))) (r : InferenceData),
      PyStanConverter.to_inference_data f coords dims = .ok r →
      r.groups.map Prod.fst = ["posterior", "sample_stats"] ∧
      (∃ dp, r.groups.lookup "posterior" = some (some dp)) ∧
      (∃ dss, r.groups.lookup "sample_stats" = some (some dss))) := by
  constructor
  · intro c r h
    rw [PyMC3Converter.to_inference_data] at h
    cases hp : c.posterior_to_xarray with
    | error e =>
      rw [hp] at h
      have h9 : (Except.error e : Except PyErr InferenceData) = .ok r := h
      exact Except.noConfusion h9
    | ok post =>
      rw [hp] at h
      cases hs : c.sample_stats_to_xarray with
      | error e =>
        rw [hs] at h
        have h9 : (Except.error e : Except PyErr InferenceData) = .ok r := h
        exact Except.noConfusion h9
      | ok stats =>
        rw [hs] at h
        cases hpp : c.posterior_predictive_to_xarray with
        | error e =>
          rw [hpp] at h
          have h9 : (Except.error e : Except PyErr InferenceData) = .ok r := h
          exact Except.noConfusion h9
        | ok pp =>
          rw [hpp] at h
          cases hpr : c.prior_to_xarray with
          | error e =>
            rw [hpr] at h
            have h9 : (Except.error e : Except PyErr InferenceData) = .ok r := h
            exact Except.noConfusion h9
          | ok pr =>
            rw [hpr] at h
            have h9 : (Except.ok (⟨[("posterior", post), ("sample_stats", stats),
              ("posterior_predictive", pp), ("prior", pr)]⟩ : InferenceData) :
                Except PyErr InferenceData) = .ok r := h
            injection h9 with h10
            rw [← h10]
            refine ⟨rfl, ?_, ?_, ?_⟩
            · intro ht
              rw [pymc3_post_none c post hp ht, pymc3_stats_none c stats hs ht]
              exact ⟨rfl, rfl⟩
            · intro ht
              rw [pymc3_pp_none c pp hpp ht]
              rfl
            · intro ht
              rw [pymc3_prior_none c pr hpr ht]
              rfl
  · intro f coords dims r h
    rw [PyStanConverter.to_inference_data] at h
    cases hp : PyStanConverter.posterior_to_xarray f coords dims with
    | error e =>
      rw [hp] at h
      have h9 : (Except.error e : Except PyErr InferenceData) = .ok r := h
      exact Except.noConfusion h9
    | ok post =>
      rw [hp] at h
      cases hs : PyStanConverter.sample_stats_to_xarray f coords dims with
      | error e =>
        rw [hs] at h
        have h9 : (Except.error e : Except PyErr InferenceData) = .ok r := h
        exact Except.noConfusion h9
      | ok stats =>
        rw [hs] at h
        have h9 : (Except.ok (⟨[("posterior", some post),
          ("sample_stats", some stats)]⟩ : InferenceData) :
            Except PyErr InferenceData) = .ok r := h
        injection h9 with h10
        rw [← h10]
        exact ⟨rfl, ⟨post, rfl⟩, ⟨stats, rfl⟩⟩

/-- Witness for C6 at a concrete empty converter and a concrete fit. -/
theorem claim6_groups_witness :
    (PyMC3Converter.to_inference_data ⟨none, none, none, none, none⟩ =
      .ok ⟨[("posterior", none), ("sample_stats", none),
            ("posterior_predictive", none), ("prior", none)]⟩ ∧
     (⟨[("posterior", none), ("sample_stats", none), ("posterior_predictive", none),
        ("prior", none)]⟩ : InferenceData).groups.map Prod.fst =
       ["posterior", "sample_stats", "posterior_predictive", "prior"]) ∧
    (PyStanConverter.to_inference_data ⟨[], "", [], [[]]⟩ none none =
      .ok ⟨[("posterior", some []), ("sample_stats", some [])]⟩ ∧
     (⟨[("posterior", some []), ("sample_stats", some [])]⟩ :
        InferenceData).groups.map Prod.fst = ["posterior", "sample_stats"]) :=
  ⟨⟨rfl, (claim6_groups.1 ⟨none, none, none, none, none⟩ _ rfl).1⟩,
   ⟨rfl, (claim6_groups.2 ⟨[], "", [], [[]]⟩ none none _ rfl).1⟩⟩

/-- Claim C7: in `_plot_posterior_op`, a kernel density curve is drawn
exactly when `kind == 'kde'` and the values have floating-point dtype; in
every other case a histogram is drawn, and for integer-dtype values with
`bins` left as `None` the bins default to `range(xmin, xmax + 2)` over the
data's minimum and maximum. -/
theorem claim7_draw_decision (kind : String) (dtypeKind : Char) (bins : Option Bins)
    (vals : List Int) (r : PlotDraw)
    (h : plotPosteriorDraw kind dtypeKind bins vals = .ok r) :
    (r = .kdeCurve ↔ (kind = "kde" ∧ dtypeKind = 'f')) ∧
    (∃ b, r = .kdeCurve ∨ r = .histogram b) ∧
    (∀ xmin xmax, dtypeKind = 'i' → bins = none →
      npMin vals = .ok xmin → npMax vals = .ok xmax →
      r = .histogram (.explicitBins (pyRange xmin (xmax + 2)))) := by
  by_cases hcond : kind = "kde" ∧ dtypeKind = 'f'
  · rw [plotPosteriorDraw.eq_def, if_pos hcond] at h
    injection h with h1
    refine ⟨⟨fun _ => hcond, fun _ => h1.symm⟩, ⟨.auto, Or.inl h1.symm⟩, ?_⟩
    intro xmin xmax hi _ _ _
    rw [hcond.2] at hi
    exact absurd hi (by decide)
  · rw [plotPosteriorDraw.eq_def, if_neg hcond] at h
    cases bins with
    | some b =>
      have h2 : (Except.ok (PlotDraw.histogram b) : Except PyErr PlotDraw) = .ok r := h
      injection h2 with h3
      refine ⟨⟨fun hr => ?_, fun hc => absurd hc hcond⟩, ⟨b, Or.inr h3.symm⟩, ?_⟩
      · rw [← h3] at hr; exact PlotDraw.noConfusion hr
      · intro xmin xmax _ hb
        exact Option.noConfusion hb
    | none =>
      by_cases hi : dtypeKind = 'i'
      · rw [if_pos hi] at h
        cases hmin : npMin vals with
        | error e =>
          rw [hmin] at h
          have h9 : (Except.error e : Except PyErr PlotDraw) = .ok r := h
          exact Except.noConfusion h9
        | ok xmin =>
          rw [hmin] at h
          cases hmax : npMax vals with
          | error e =>
            rw [hmax] at h
            have h9 : (Except.error e : Except PyErr PlotDraw) = .ok r := h
            exact Except.noConfusion h9
          | ok xmax =>
            rw [hmax] at h
            have h9 : (Except.ok (PlotDraw.histogram
              (.explicitBins (pyRange xmin (xmax + 2)))) : Except PyErr PlotDraw) =
                .ok r := h
            injection h9 with h10
            refine ⟨⟨fun hr => ?_, fun hc => absurd hc hcond⟩,
              ⟨.explicitBins (pyRange xmin (xmax + 2)), Or.inr h10.symm⟩, ?_⟩
            · rw [← h10] at hr; exact PlotDraw.noConfusion hr
            · intro xmin2 xmax2 _ _ hmin2 hmax2
              injection hmin2 with hm1
              injection hmax2 with hm2
              rw [← h10, ← hm1, ← hm2]
      · rw [if_neg hi] at h
        injection h with h1
        refine ⟨⟨fun hr => ?_, fun hc => absurd hc hcond⟩, ⟨.auto, Or.inr h1.symm⟩, ?_⟩
        · rw [← h1] at hr; exact PlotDraw.noConfusion hr
        · intro xmin xmax hi2 _ _ _
          exact absurd hi2 hi

/-- Witness for C7 at an integer-dtype input with default bins. -/
theorem claim7_draw_decision_witness :
    plotPosteriorDraw "kde" 'i' none [3, 1] =
      .ok (.histogram (.explicitBins [1, 2, 3, 4])) ∧
    ((.histogram (.explicitBins [1, 2, 3, 4]) : PlotDraw) = .kdeCurve ↔
      ("kde" = "kde" ∧ 'i' = 'f')) :=
  ⟨rfl, (claim7_draw_decision "kde" 'i' none [3, 1] _ rfl).1⟩

/-- Claim C8: `convert_to_inference_data` is idempotent at the container
type: an `InferenceData` input is returned unchanged, and consequently
`convert_to_dataset` applied to an `xarray.Dataset` returns that dataset
under the requested group. -/
theorem claim8_idempotent :
    (∀ (i : InferenceData) (group : String) (coords : Option Coords)
       (dims : Option (List (String × List String))),
      (convert_to_inference_data (.inferenceData i) group coords dims).result = .ok i) ∧
    (∀ (d : Dataset) (group : String) (coords : Option Coords)
       (dims : Option (List (String × List String))),
      convert_to_dataset (.xrDataset d) group coords dims = .ok d) := by
  refine ⟨fun i group coords dims => rfl, fun d group coords dims => ?_⟩
  have hl : List.lookup group [(group, some d)] = some (some d) := by
    rw [List.lookup, show (group == group) = true from beq_self_eq_true group]
  have hg : InferenceData.getGroup ⟨[(group, some d)]⟩ group = some d := by
    rw [InferenceData.getGroup]
    show (List.lookup group [(group, some d)]).bind id = some d
    rw [hl]
    rfl
  show (match InferenceData.getGroup ⟨[(group, some d)]⟩ group with
       | some ds => (.ok ds : Except PyErr Dataset)
       | none => .error (.valueError ("Can not extract " ++ group ++ "!"))) = .ok d
  rw [hg]

/-- Claim C9: with a non-`None` `dims` argument, `numpy_to_data_array`
requires `coords` to be a dict covering every listed dimension name other
than `chain` and `draw`: with `coords=None` it fails at `dict(coords)`
(a `TypeError`), and with a coords dict missing one of those names it fails
with a `KeyError` when building the index variables. -/
theorem claim9_user_dims_requires_coords :
    (∀ (ary : NpArray) (vn : String) (uds : List String),
      numpy_to_data_array ary vn none (some uds) =
        .error (.typeError "dict argument must be iterable, not NoneType")) ∧
    (∀ (ary : NpArray) (vn : String) (c0 : Coords) (uds : List String) (name : String)
       (nc ns : Nat) (tl : List Nat),
      ary.shape = nc :: ns :: tl → name ∈ uds → name ≠ "chain" → name ≠ "draw" →
      c0.lookup name = none →
      ∃ k, numpy_to_data_array ary vn (some c0) (some uds) =
        .error (.keyError k)) := by
  refine ⟨fun ary vn uds => rfl, ?_⟩
  intro ary vn c0 uds name nc ns tl hsh hmem hnc hnd h0
  rw [numpy_some_unfold, hsh]
  have hmem1 : name ∈ (if uds.take 2 = default_dims then uds
      else default_dims ++ uds) := by
    by_cases htake : uds.take 2 = default_dims
    · rw [if_pos htake]; exact hmem
    · rw [if_neg htake]; exact List.mem_append.mpr (Or.inr hmem)
  exact finish_user_missing nc ns tl _ c0 name hmem1 hnc hnd h0

/-- Witness for C9 at a concrete missing coordinate name. -/
theorem claim9_user_dims_requires_coords_witness :
    ((⟨[1, 2]⟩ : NpArray).shape = 1 :: 2 :: [] ∧ "school" ∈ ["school"] ∧
      "school" ≠ "chain" ∧ "school" ≠ "draw" ∧
      ([] : Coords).lookup "school" = none) ∧
    (∃ k, numpy_to_data_array ⟨[1, 2]⟩ "x" (some []) (some ["school"]) =
      .error (.keyError k)) :=
  ⟨⟨rfl, by decide, by decide, by decide, rfl⟩,
   claim9_user_dims_requires_coords.2 ⟨[1, 2]⟩ "x" [] ["school"] "school" 1 2 []
     rfl (by decide) (by decide) (by decide) rfl⟩

/-- Claim C10: selecting the `mode` point estimate in `_plot_posterior_op`
always raises `AttributeError`: the computation accesses `values.iloc[0]` on
the flattened numpy sample array, which has no `iloc` attribute, so the
error is raised before any point-estimate text is drawn. -/
theorem claim10_mode_iloc_error (values : List ℚ) (bw : ℚ) (round_to : Nat) :
    display_point_estimate (some "mode") values bw round_to =
      .error (.attributeError "numpy.ndarray object has no attribute iloc") := rfl

end Arviz
